import Mathlib

/-!
The named-graph front end of lwtnn (`LightweightGraph`) and `ConcatenateNode`.

A shallow embedding of `src/LightweightGraph.cxx` and of the interfaces declared in
`include/lwtnn/Graph.hh`.

* C++ exceptions become the error side of `Except LwtError`.
* `size_t` is `Nat`; the only arithmetic on it is the output counter of the constructor.
* `double` is a type parameter `D`: the front end only copies scalars, it never computes
  with them, so every statement holds for any carrier of the scalars.
* `std::map<std::string, T>` is a key/value list with the operations the code uses
  (`count`, `at`, `emplace`, `operator[]`); insertion keeps the keys in increasing order.
-/

namespace lwt

/-- The failures that can leave the code: the two exception classes of the library, the
`std::out_of_range` of `std::vector::at` / `std::map::at` (its text is chosen by the C++
library and is not modelled), and a coefficient read `result(i)` outside an Eigen vector
(guarded in the library by an assertion only). -/
inductive LwtError where
  | NNConfigurationException (what : String)
  | NNEvaluationException (what : String)
  | out_of_range
  | eigen_index_out_of_bounds
  deriving DecidableEq

deriving instance DecidableEq for Except

/-- Test for the exception class `NNEvaluationException`. -/
def LwtError.isEvaluation : LwtError → Bool
  | .NNEvaluationException _ => true
  | _ => false

/-- Test for the exception class `NNConfigurationException`. -/
def LwtError.isConfiguration : LwtError → Bool
  | .NNConfigurationException _ => true
  | _ => false

/-- The C++ `Eigen::VectorXd`. -/
abbrev VectorXd (D : Type) := List D

/-- The C++ `Eigen::MatrixXd`, as the list of its rows. -/
abbrev MatrixXd (D : Type) := List (List D)

/-- The C++ `std::map<std::string, T>`. -/
abbrev StdMap (T : Type) := List (String × T)

namespace StdMap

variable {T : Type}

/-- The C++ `std::map::find`: the value stored under `key`, if any. -/
def find : StdMap T → String → Option T
  | [], _ => none
  | (k, v) :: rest, key => if key = k then some v else find rest key

/-- The C++ `std::map::count`: 1 when the key is present, 0 otherwise. -/
def count (m : StdMap T) (key : String) : Nat :=
  if (m.find key).isSome then 1 else 0

/-- The C++ `std::map::at`: the stored value, or `std::out_of_range`. -/
def at_ (m : StdMap T) (key : String) : Except LwtError T :=
  match m.find key with
  | some v => .ok v
  | none => .error .out_of_range

/-- Insertion of a new pair at its place in the key order, `std::less<std::string>`: the
keys are compared character by character. -/
def insert_new : StdMap T → String → T → StdMap T
  | [], key, v => [(key, v)]
  | (k, w) :: rest, key, v =>
    if key.data < k.data then (key, v) :: (k, w) :: rest
    else (k, w) :: insert_new rest key v

/-- Overwrites the value stored under `key`. -/
def replace : StdMap T → String → T → StdMap T
  | [], _, _ => []
  | (k, w) :: rest, key, v =>
    if key = k then (k, v) :: rest
    else (k, w) :: replace rest key v

/-- The C++ `std::map::emplace`: inserts the pair unless the key is already present. -/
def emplace (m : StdMap T) (key : String) (v : T) : StdMap T :=
  if (m.find key).isSome then m else m.insert_new key v

/-- The assignment `m[key] = v` through `std::map::operator[]`: overwrites or inserts. -/
def assign (m : StdMap T) (key : String) (v : T) : StdMap T :=
  if (m.find key).isSome then m.replace key v else m.insert_new key v

/-- The keys of the map, in iteration order. -/
def keys (m : StdMap T) : List String := m.map Prod.fst

end StdMap

/-- The C++ `std::vector::at`: the element at `idx`, or `std::out_of_range`. -/
def vector_at {T : Type} (v : List T) (idx : Nat) : Except LwtError T :=
  match v[idx]? with
  | some x => .ok x
  | none => .error .out_of_range

/-- The C++ `std::map<std::string, double>`, the type of the result of `compute`. -/
abbrev ValueMap (D : Type) := StdMap D

/-! ## `Graph.hh` -/

/-- The C++ `ISource` (Graph.hh): the two virtual accessors. -/
structure ISource (D : Type) where
  at_ : Nat → Except LwtError (VectorXd D)
  matrix_at : Nat → Except LwtError (MatrixXd D)

/-- Modelled from the spec: `VectorSource` is declared in Graph.hh, its accessors are
defined in Graph.cxx, which is not among the sources. Spec 4.3: the value-backed source
is built from two ordered lists, its accessors "simply index into these lists, failing
with an evaluation error (out-of-range) if asked for an index beyond what was supplied". -/
def VectorSource {D : Type} (m_inputs : List (VectorXd D))
    (m_matrix_inputs : List (MatrixXd D)) : ISource D where
  at_ := fun index =>
    match m_inputs[index]? with
    | some v => .ok v
    | none => .error (.NNEvaluationException "VectorSource: no input vector at this index")
  matrix_at := fun index =>
    match m_matrix_inputs[index]? with
    | some v => .ok v
    | none => .error (.NNEvaluationException "VectorSource: no input matrix at this index")

/-- The C++ `INode` (Graph.hh): the two virtual methods of a vector-producing node. -/
structure INode (D : Type) where
  compute : ISource D → Except LwtError (VectorXd D)
  n_outputs : Nat

/-- Modelled from the spec: `InputNode` is declared in Graph.hh, its methods are defined in
Graph.cxx, which is not among the sources. Spec 3: a vector-producing leaf that "reads
directly from the source at `slot`" and "declares `width` for downstream consistency
checking (not necessarily verified at construction)". -/
def InputNode {D : Type} (m_index m_n_outputs : Nat) : INode D where
  compute := fun source => source.at_ m_index
  n_outputs := m_n_outputs

/-- The vectors of the listed nodes on one source, appended in list order; the first
failing node aborts the evaluation. -/
def ConcatenateNode.concat {D : Type} (source : ISource D) :
    List (INode D) → Except LwtError (VectorXd D)
  | [] => .ok []
  | node :: rest =>
    match node.compute source with
    | .error e => .error e
    | .ok input =>
      match ConcatenateNode.concat source rest with
      | .error e => .error e
      | .ok output => .ok (input ++ output)

/-- Modelled from the spec: `ConcatenateNode` is declared in Graph.hh, its methods are
defined in Graph.cxx, which is not among the sources. Spec 3: it "evaluates every listed
source node and concatenates their vectors in listed order; width = sum of source
widths". -/
def ConcatenateNode {D : Type} (m_sources : List (INode D)) : INode D where
  compute := fun source => ConcatenateNode.concat source m_sources
  n_outputs := (m_sources.map INode.n_outputs).sum

/-- The C++ `Graph` (Graph.hh), seen from LightweightGraph.cxx: the by-index `compute`. Its
definition (Graph.cxx) is not among the sources, so it is a parameter of the model; it is
a `const` method, hence a function of the source and the node number. -/
structure Graph (D : Type) where
  compute : ISource D → Nat → Except LwtError (VectorXd D)

/-! ## The configuration (`NNLayerConfig.hh`, not among the sources)

Only the fields that LightweightGraph.cxx reads are modelled. The types of the variable
lists, of the node descriptors and of the layer descriptors are parameters `V`, `NC`, `LC`:
the front end hands them on without looking inside. -/

/-- The C++ `InputNodeConfig`: the fields `name` and `variables` (a reserved word here, hence the
underscore). -/
structure InputNodeConfig (V : Type) where
  name : String
  variables_ : V

/-- The C++ `OutputNodeConfig`: the fields `labels` and `node_index`. -/
structure OutputNodeConfig where
  labels : List String
  node_index : Nat
  deriving DecidableEq

/-- The C++ `GraphConfig`. `outputs` lists the (name, descriptor) pairs in the order in which the
constructor's loop visits them. -/
structure GraphConfig (V NC LC : Type) where
  inputs : List (InputNodeConfig V)
  input_sequences : List (InputNodeConfig V)
  nodes : List NC
  outputs : List (String × OutputNodeConfig)
  layers : List LC

/-! ## `LightweightGraph.cxx` -/

/-- The C++ `InputPreprocessor`, seen from LightweightGraph.cxx: it is applied to the caller's raw
value (of a type `R`) for one plain input and gives the input vector. -/
abbrev InputPreprocessor (D R : Type) := R → VectorXd D

/-- The C++ `InputVectorPreprocessor`: the same for one sequence input (raw values of type `S`). -/
abbrev InputVectorPreprocessor (D S : Type) := S → MatrixXd D

/-- The C++ `Preprocs`: `std::vector<std::pair<std::string, IP*> >`. -/
abbrev Preprocs (D R : Type) := List (String × InputPreprocessor D R)

/-- The C++ `VecPreprocs`: `std::vector<std::pair<std::string, IVP*> >`. -/
abbrev VecPreprocs (D S : Type) := List (String × InputVectorPreprocessor D S)

/-- The C++ `LightweightGraph::NodeMap`: input name to raw value. -/
abbrev NodeMap (R : Type) := StdMap R

/-- The C++ `LightweightGraph::SeqNodeMap`: sequence-input name to raw value. -/
abbrev SeqNodeMap (S : Type) := StdMap S

/-- Modelled from the spec: the constructors that LightweightGraph.cxx calls and that are
defined outside the sources (Graph.cxx, InputPreprocessor.hh). Spec 4.1 and 7: building a
`Graph` gives the graph or fails with a configuration error, carried here as its text.
Spec 6: a preprocessor "turns raw named variables into a single numeric vector/matrix". -/
structure Collaborators (D R S V NC LC : Type) where
  Graph_new : List NC → List LC → Except String (Graph D)
  InputPreprocessor_new : V → InputPreprocessor D R
  InputVectorPreprocessor_new : V → InputVectorPreprocessor D S

/-- The C++ `get_input_vectors` (lines 14-25). -/
def get_input_vectors {D R : Type} (nodes : NodeMap R) :
    Preprocs D R → Except LwtError (List (VectorXd D))
  | [] => .ok []
  | proc :: rest =>
    if nodes.count proc.1 = 0 then
      .error (.NNEvaluationException ("Can't find node " ++ proc.1))
    else
      match nodes.at_ proc.1 with
      | .error e => .error e
      | .ok raw =>
        match get_input_vectors nodes rest with
        | .error e => .error e
        | .ok input_vectors => .ok (proc.2 raw :: input_vectors)

/-- The C++ `get_input_seq` (lines 29-40). -/
def get_input_seq {D S : Type} (nodes : SeqNodeMap S) :
    VecPreprocs D S → Except LwtError (List (MatrixXd D))
  | [] => .ok []
  | proc :: rest =>
    if nodes.count proc.1 = 0 then
      .error (.NNEvaluationException ("Can't find node " ++ proc.1))
    else
      match nodes.at_ proc.1 with
      | .error e => .error e
      | .ok raw =>
        match get_input_seq nodes rest with
        | .error e => .error e
        | .ok input_mats => .ok (proc.2 raw :: input_mats)

/-- The data members of `LightweightGraph`. -/
structure LightweightGraph (D R S : Type) where
  m_graph : Graph D
  m_preprocs : Preprocs D R
  m_vec_preprocs : VecPreprocs D S
  m_outputs : List (Nat × List String)
  m_output_indices : StdMap Nat
  m_default_output : Nat

/-- The loop over `config.outputs` in the constructor (lines 60-65): one step appends to
`m_outputs`, emplaces into `m_output_indices` and increments `output_n`. -/
def LightweightGraph.collect_outputs :
    List (String × OutputNodeConfig) → List (Nat × List String) → StdMap Nat → Nat →
      List (Nat × List String) × StdMap Nat × Nat
  | [], m_outputs, m_output_indices, output_n => (m_outputs, m_output_indices, output_n)
  | node :: rest, m_outputs, m_output_indices, output_n =>
    LightweightGraph.collect_outputs rest
      (m_outputs ++ [(node.2.node_index, node.2.labels)])
      (m_output_indices.emplace node.1 output_n)
      (output_n + 1)

/-- The constructor `LightweightGraph::LightweightGraph` (lines 48-76). -/
def LightweightGraph.new {D R S V NC LC : Type} (ext : Collaborators D R S V NC LC)
    (config : GraphConfig V NC LC) (default_output : String) :
    Except LwtError (LightweightGraph D R S) :=
  match ext.Graph_new config.nodes config.layers with
  | .error what => .error (.NNConfigurationException what)
  | .ok m_graph =>
    let m_preprocs : Preprocs D R :=
      config.inputs.map fun node => (node.name, ext.InputPreprocessor_new node.variables_)
    let m_vec_preprocs : VecPreprocs D S :=
      config.input_sequences.map fun node =>
        (node.name, ext.InputVectorPreprocessor_new node.variables_)
    let collected := LightweightGraph.collect_outputs config.outputs [] [] 0
    let m_outputs := collected.1
    let m_output_indices := collected.2.1
    let output_n := collected.2.2
    if default_output.length > 0 then
      if m_output_indices.count default_output = 0 then
        .error (.NNConfigurationException ("no output node" ++ default_output))
      else
        match m_output_indices.at_ default_output with
        | .error e => .error e
        | .ok idx =>
          .ok { m_graph, m_preprocs, m_vec_preprocs, m_outputs, m_output_indices,
                m_default_output := idx }
    else if output_n = 1 then
      .ok { m_graph, m_preprocs, m_vec_preprocs, m_outputs, m_output_indices,
            m_default_output := 0 }
    else
      .error (.NNConfigurationException "you must specify a default output")

/-- The two arguments of the `VectorSource` constructor call on lines 105-106. C++ leaves
the order in which the two argument expressions are evaluated to the compiler;
`seq_first` says whether `get_input_seq` runs before `get_input_vectors`. -/
def LightweightGraph.make_source {D R S : Type} (seq_first : Bool)
    (g : LightweightGraph D R S) (nodes : NodeMap R) (seq : SeqNodeMap S) :
    Except LwtError (ISource D) :=
  if seq_first then
    match get_input_seq seq g.m_vec_preprocs with
    | .error e => .error e
    | .ok input_mats =>
      match get_input_vectors nodes g.m_preprocs with
      | .error e => .error e
      | .ok input_vectors => .ok (VectorSource input_vectors input_mats)
  else
    match get_input_vectors nodes g.m_preprocs with
    | .error e => .error e
    | .ok input_vectors =>
      match get_input_seq seq g.m_vec_preprocs with
      | .error e => .error e
      | .ok input_mats => .ok (VectorSource input_vectors input_mats)

/-- The loop of lines 110-112: `output[labels.at(iii)] = result(iii)` for `iii` from the
current counter up to `labels.size()`; `labels` is the part of the label list not yet
visited. -/
def LightweightGraph.zip_labels {D : Type} (result : VectorXd D) :
    List String → Nat → ValueMap D → Except LwtError (ValueMap D)
  | [], _, output => .ok output
  | label :: labels, iii, output =>
    match result[iii]? with
    | none => .error .eigen_index_out_of_bounds
    | some value =>
      LightweightGraph.zip_labels result labels (iii + 1) (output.assign label value)

/-- Lines 107-113 of `compute(nodes, seq, idx)`, once the source is built: the output
descriptor is fetched with `m_outputs.at(idx)`, the graph evaluates its node on the
source, and the result vector is zipped with the labels. -/
def LightweightGraph.compute_from_source {D R S : Type} (g : LightweightGraph D R S)
    (source : ISource D) (idx : Nat) : Except LwtError (ValueMap D) :=
  match vector_at g.m_outputs idx with
  | .error e => .error e
  | .ok out =>
    match g.m_graph.compute source out.1 with
    | .error e => .error e
    | .ok result => LightweightGraph.zip_labels result out.2 0 []

/-- The C++ `LightweightGraph::compute(nodes, seq, idx)` (lines 102-114). -/
def LightweightGraph.compute_idx {D R S : Type} (seq_first : Bool)
    (g : LightweightGraph D R S) (nodes : NodeMap R) (seq : SeqNodeMap S) (idx : Nat) :
    Except LwtError (ValueMap D) :=
  match g.make_source seq_first nodes seq with
  | .error e => .error e
  | .ok source => g.compute_from_source source idx

/-- The C++ `LightweightGraph::compute(nodes, seq, output)` (lines 94-101). -/
def LightweightGraph.compute_name {D R S : Type} (seq_first : Bool)
    (g : LightweightGraph D R S) (nodes : NodeMap R) (seq : SeqNodeMap S)
    (output : String) : Except LwtError (ValueMap D) :=
  if g.m_output_indices.count output = 0 then
    .error (.NNEvaluationException ("no output node " ++ output))
  else
    match g.m_output_indices.at_ output with
    | .error e => .error e
    | .ok idx => g.compute_idx seq_first nodes seq idx

/-- The C++ `LightweightGraph::compute(nodes, seq)` (lines 90-93). -/
def LightweightGraph.compute {D R S : Type} (seq_first : Bool)
    (g : LightweightGraph D R S) (nodes : NodeMap R) (seq : SeqNodeMap S) :
    Except LwtError (ValueMap D) :=
  g.compute_idx seq_first nodes seq g.m_default_output

/-- Which of the three overloads of `compute` a caller uses. -/
inductive OutputSelector where
  | default
  | name (output : String)
  | index (idx : Nat)
  deriving DecidableEq

/-- A call of `compute` through the overload that the selector names. -/
def LightweightGraph.call {D R S : Type} (seq_first : Bool) (g : LightweightGraph D R S)
    (nodes : NodeMap R) (seq : SeqNodeMap S) :
    OutputSelector → Except LwtError (ValueMap D)
  | .default => g.compute seq_first nodes seq
  | .name output => g.compute_name seq_first nodes seq output
  | .index idx => g.compute_idx seq_first nodes seq idx

/-! ### The three overloads as steps on the object

The same three member functions once more, statement by statement, this time threading
the object through every statement: a member function body takes the object it is called
on and returns that object as the statement leaves it, together with the value or the
exception. What a call does to the object is then read off from the body, it is not
assumed. -/

/-- Collaborators of the toy networks: scalars are integers, the raw value of an input
is already its vector, and node `k` of the graph returns the input vector of slot `k`. -/
def toyExt : Collaborators Int (List Int) (List (List Int)) Unit Unit Unit where
  Graph_new := fun _ _ => .ok { compute := fun source node_number => source.at_ node_number }
  InputPreprocessor_new := fun _ => id
  InputVectorPreprocessor_new := fun _ => id

/-- The graph that `toyExt` builds. -/
def toyGraph : Graph Int where
  compute := fun source node_number => source.at_ node_number

/-- One plain input `x`, one output `out` on node 0 with three labels. -/
def toyConfigOne : GraphConfig Unit Unit Unit where
  inputs := [{ name := "x", variables_ := () }]
  input_sequences := []
  nodes := []
  outputs := [("out", { labels := ["out0", "out1", "out2"], node_index := 0 })]
  layers := []

/-- Two plain inputs `x`, `y`, one sequence input `s`, and two outputs: `a` on node 0 and
`b` on node 1. -/
def toyConfigTwo : GraphConfig Unit Unit Unit where
  inputs := [{ name := "x", variables_ := () }, { name := "y", variables_ := () }]
  input_sequences := [{ name := "s", variables_ := () }]
  nodes := []
  outputs := [("a", { labels := ["p", "q"], node_index := 0 }),
              ("b", { labels := ["r", "s"], node_index := 1 })]
  layers := []

/-- The orchestrator built from `toyConfigOne` (with or without the default name `out`). -/
def toyOne : LightweightGraph Int (List Int) (List (List Int)) where
  m_graph := toyGraph
  m_preprocs := [("x", id)]
  m_vec_preprocs := []
  m_outputs := [(0, ["out0", "out1", "out2"])]
  m_output_indices := [("out", 0)]
  m_default_output := 0

/-- The orchestrator built from `toyConfigTwo` with the default name `b`. -/
def toyTwo : LightweightGraph Int (List Int) (List (List Int)) where
  m_graph := toyGraph
  m_preprocs := [("x", id), ("y", id)]
  m_vec_preprocs := [("s", id)]
  m_outputs := [(0, ["p", "q"]), (1, ["r", "s"])]
  m_output_indices := [("a", 0), ("b", 1)]
  m_default_output := 1

/-- A graph whose every node has width 2: it returns the vector `(7, 8)` on every source. -/
def fixedGraph : Graph Int where
  compute := fun _ _ => .ok [7, 8]

/-- Collaborators that build `fixedGraph`. -/
def fixedExt : Collaborators Int (List Int) (List (List Int)) Unit Unit Unit where
  Graph_new := fun _ _ => .ok fixedGraph
  InputPreprocessor_new := fun _ => id
  InputVectorPreprocessor_new := fun _ => id

/-- No inputs, and one output `out` on node 0 that declares three labels. -/
def fixedConfig : GraphConfig Unit Unit Unit where
  inputs := []
  input_sequences := []
  nodes := []
  outputs := [("out", { labels := ["a", "b", "c"], node_index := 0 })]
  layers := []

/-- The orchestrator built from `fixedConfig` by `fixedExt`. -/
def fixedOne : LightweightGraph Int (List Int) (List (List Int)) where
  m_graph := fixedGraph
  m_preprocs := []
  m_vec_preprocs := []
  m_outputs := [(0, ["a", "b", "c"])]
  m_output_indices := [("out", 0)]
  m_default_output := 0

/-- Two outputs, the first of which has the empty string as its name. -/
def toyConfigBlank : GraphConfig Unit Unit Unit where
  inputs := [{ name := "x", variables_ := () }]
  input_sequences := []
  nodes := []
  outputs := [("", { labels := ["p"], node_index := 0 }),
              ("b", { labels := ["r"], node_index := 0 })]
  layers := []

/-- One plain input `x` and one output `out` on node 0 whose label list repeats `u`. -/
def toyConfigRepeat : GraphConfig Unit Unit Unit where
  inputs := [{ name := "x", variables_ := () }]
  input_sequences := []
  nodes := []
  outputs := [("out", { labels := ["u", "v", "u"], node_index := 0 })]
  layers := []

/-- The orchestrator built from `toyConfigRepeat`. -/
def toyRepeat : LightweightGraph Int (List Int) (List (List Int)) where
  m_graph := toyGraph
  m_preprocs := [("x", id)]
  m_vec_preprocs := []
  m_outputs := [(0, ["u", "v", "u"])]
  m_output_indices := [("out", 0)]
  m_default_output := 0

/-! ## Lemmas on the map operations -/

theorem StdMap.count_eq_zero_iff {T : Type} (m : StdMap T) (key : String) :
    m.count key = 0 ↔ m.find key = none := by
  unfold StdMap.count
  cases h : m.find key <;> simp

theorem StdMap.count_ne_zero_iff {T : Type} (m : StdMap T) (key : String) :
    m.count key ≠ 0 ↔ ∃ v, m.find key = some v := by
  unfold StdMap.count
  cases h : m.find key <;> simp

theorem StdMap.find_insert_new {T : Type} (m : StdMap T) (key : String) (v : T)
    (k' : String) (h : m.find key = none) :
    (m.insert_new key v).find k' = if k' = key then some v else m.find k' := by
  induction m with
  | nil => simp [StdMap.insert_new, StdMap.find]
  | cons hd rest ih =>
    obtain ⟨k, w⟩ := hd
    simp only [StdMap.find] at h
    by_cases hk : key = k
    · simp [hk] at h
    · simp only [hk, if_false] at h
      simp only [StdMap.insert_new]
      by_cases hlt : key.data < k.data
      · simp only [hlt, if_true, StdMap.find]
      · simp only [hlt, if_false, StdMap.find, ih h]
        by_cases h1 : k' = k
        · have h2 : ¬ k = key := fun h3 => hk h3.symm
          simp [h1, h2]
        · simp [h1]

theorem StdMap.find_emplace {T : Type} (m : StdMap T) (key : String) (v : T)
    (k' : String) :
    (m.emplace key v).find k' =
      if k' = key then some ((m.find key).getD v) else m.find k' := by
  unfold StdMap.emplace
  cases h : m.find key with
  | none => simp [StdMap.find_insert_new m key v k' h]
  | some w =>
    by_cases hk : k' = key
    · simp [hk, h]
    · simp [hk]

theorem String_length_pos_of_ne_empty (d : String) (h : d ≠ "") : 0 < d.length := by
  cases d with
  | mk data =>
    cases data with
    | nil => exact absurd rfl h
    | cons c cs => simp [String.length]

/-! ## Lemmas on the constructor -/

theorem collect_outputs_outputs (outs : List (String × OutputNodeConfig))
    (acc : List (Nat × List String)) (idxs : StdMap Nat) (n : Nat) :
    (LightweightGraph.collect_outputs outs acc idxs n).1 =
      acc ++ outs.map (fun node => (node.2.node_index, node.2.labels)) := by
  induction outs generalizing acc idxs n with
  | nil => simp [LightweightGraph.collect_outputs]
  | cons node rest ih => simp [LightweightGraph.collect_outputs, ih]

theorem collect_outputs_count (outs : List (String × OutputNodeConfig))
    (acc : List (Nat × List String)) (idxs : StdMap Nat) (n : Nat) :
    (LightweightGraph.collect_outputs outs acc idxs n).2.2 = n + outs.length := by
  induction outs generalizing acc idxs n with
  | nil => simp [LightweightGraph.collect_outputs]
  | cons node rest ih =>
    simp only [LightweightGraph.collect_outputs, ih, List.length_cons]
    omega

theorem collect_outputs_find_none (outs : List (String × OutputNodeConfig))
    (acc : List (Nat × List String)) (idxs : StdMap Nat) (n : Nat) (name : String) :
    (LightweightGraph.collect_outputs outs acc idxs n).2.1.find name = none ↔
      idxs.find name = none ∧ name ∉ outs.map Prod.fst := by
  induction outs generalizing acc idxs n with
  | nil => simp [LightweightGraph.collect_outputs]
  | cons node rest ih =>
    simp only [LightweightGraph.collect_outputs, ih, StdMap.find_emplace, List.map_cons,
      List.mem_cons, not_or]
    by_cases hk : name = node.1
    · simp [hk]
    · simp [hk]

/-- What the constructor does once the graph is built, with the three results of the
output loop named. -/
theorem LightweightGraph.new_of_graph {D R S V NC LC : Type}
    (ext : Collaborators D R S V NC LC) (config : GraphConfig V NC LC)
    (default_output : String) (m_graph : Graph D)
    (hgraph : ext.Graph_new config.nodes config.layers = .ok m_graph) :
    LightweightGraph.new ext config default_output =
      (if default_output.length > 0 then
        if (LightweightGraph.collect_outputs config.outputs [] [] 0).2.1.count
            default_output = 0 then
          .error (.NNConfigurationException ("no output node" ++ default_output))
        else
          match (LightweightGraph.collect_outputs config.outputs [] [] 0).2.1.at_
              default_output with
          | .error e => .error e
          | .ok idx =>
            .ok { m_graph := m_graph
                  m_preprocs := config.inputs.map fun node =>
                    (node.name, ext.InputPreprocessor_new node.variables_)
                  m_vec_preprocs := config.input_sequences.map fun node =>
                    (node.name, ext.InputVectorPreprocessor_new node.variables_)
                  m_outputs := (LightweightGraph.collect_outputs config.outputs [] [] 0).1
                  m_output_indices :=
                    (LightweightGraph.collect_outputs config.outputs [] [] 0).2.1
                  m_default_output := idx }
      else if (LightweightGraph.collect_outputs config.outputs [] [] 0).2.2 = 1 then
        .ok { m_graph := m_graph
              m_preprocs := config.inputs.map fun node =>
                (node.name, ext.InputPreprocessor_new node.variables_)
              m_vec_preprocs := config.input_sequences.map fun node =>
                (node.name, ext.InputVectorPreprocessor_new node.variables_)
              m_outputs := (LightweightGraph.collect_outputs config.outputs [] [] 0).1
              m_output_indices :=
                (LightweightGraph.collect_outputs config.outputs [] [] 0).2.1
              m_default_output := 0 }
      else
        .error (.NNConfigurationException "you must specify a default output")) := by
  simp only [LightweightGraph.new, hgraph]

/-- Every orchestrator that the constructor returns holds the members computed from the
configuration, and its default index is the one the name lookup gives for an explicit
default name, 0 otherwise. -/
theorem LightweightGraph.new_ok_members {D R S V NC LC : Type}
    (ext : Collaborators D R S V NC LC) (config : GraphConfig V NC LC)
    (default_output : String) (g : LightweightGraph D R S)
    (hnew : LightweightGraph.new ext config default_output = .ok g) :
    g.m_preprocs = config.inputs.map (fun node =>
        (node.name, ext.InputPreprocessor_new node.variables_)) ∧
    g.m_vec_preprocs = config.input_sequences.map (fun node =>
        (node.name, ext.InputVectorPreprocessor_new node.variables_)) ∧
    g.m_outputs = config.outputs.map (fun node => (node.2.node_index, node.2.labels)) ∧
    g.m_output_indices = (LightweightGraph.collect_outputs config.outputs [] [] 0).2.1 ∧
    (if default_output.length > 0 then
      g.m_output_indices.find default_output = some g.m_default_output
     else g.m_default_output = 0 ∧ config.outputs.length = 1) := by
  cases hgraph : ext.Graph_new config.nodes config.layers with
  | error what => simp [LightweightGraph.new, hgraph] at hnew
  | ok m_graph =>
    rw [LightweightGraph.new_of_graph ext config default_output m_graph hgraph] at hnew
    have houts := collect_outputs_outputs config.outputs [] [] 0
    have hcnt := collect_outputs_count config.outputs [] [] 0
    simp only [List.nil_append, Nat.zero_add] at houts hcnt
    by_cases hlen : default_output.length > 0
    · simp only [hlen, if_true] at hnew ⊢
      by_cases hc : (LightweightGraph.collect_outputs config.outputs [] [] 0).2.1.count
          default_output = 0
      · simp [hc] at hnew
      · simp only [hc, if_false] at hnew
        unfold StdMap.at_ at hnew
        cases hf : (LightweightGraph.collect_outputs config.outputs [] [] 0).2.1.find
            default_output with
        | none => simp [hf] at hnew
        | some idx =>
          simp only [hf, Except.ok.injEq] at hnew
          subst hnew
          simp [houts, hf]
    · simp only [hlen, if_false] at hnew ⊢
      by_cases h1 : (LightweightGraph.collect_outputs config.outputs [] [] 0).2.2 = 1
      · simp only [h1, if_true, Except.ok.injEq] at hnew
        subst hnew
        simp [houts, ← hcnt, h1]
      · simp [h1] at hnew

/-- The name lookup of a constructed orchestrator finds exactly the declared names. -/
theorem LightweightGraph.new_ok_count {D R S V NC LC : Type}
    (ext : Collaborators D R S V NC LC) (config : GraphConfig V NC LC)
    (default_output : String) (g : LightweightGraph D R S)
    (hnew : LightweightGraph.new ext config default_output = .ok g) (name : String) :
    g.m_output_indices.count name = 0 ↔ name ∉ config.outputs.map Prod.fst := by
  rw [(LightweightGraph.new_ok_members ext config default_output g hnew).2.2.2.1,
    StdMap.count_eq_zero_iff, collect_outputs_find_none]
  simp [StdMap.find]

/-! ## Default-output resolution (C1 - C5) -/

/-- C1: for a configuration with exactly one declared output `(n, o)` whose graph builds,
construction with the empty default name succeeds, the default index points at the entry
`(o.node_index, o.labels)`, and for all inputs `compute(nodes, seq)` returns exactly what
`compute(nodes, seq, n)` returns (same mapping or same failure). -/
theorem C1_single_output_is_default {D R S V NC LC : Type}
    (ext : Collaborators D R S V NC LC) (config : GraphConfig V NC LC)
    (n : String) (o : OutputNodeConfig) (m_graph : Graph D)
    (hout : config.outputs = [(n, o)])
    (hgraph : ext.Graph_new config.nodes config.layers = .ok m_graph) :
    ∃ g : LightweightGraph D R S, LightweightGraph.new ext config "" = .ok g ∧
      g.m_outputs[g.m_default_output]? = some (o.node_index, o.labels) ∧
      ∀ (seq_first : Bool) (nodes : NodeMap R) (seq : SeqNodeMap S),
        g.compute seq_first nodes seq = g.compute_name seq_first nodes seq n := by
  have hlen : ¬ ("".length > 0) := by decide
  rw [LightweightGraph.new_of_graph ext config "" m_graph hgraph, hout]
  simp only [hlen, if_false, LightweightGraph.collect_outputs, Nat.zero_add, if_true]
  refine ⟨_, rfl, ?_, ?_⟩
  · simp
  · intro seq_first nodes seq
    simp [LightweightGraph.compute, LightweightGraph.compute_name, StdMap.count,
      StdMap.emplace, StdMap.insert_new, StdMap.find, StdMap.at_]

/-- Witness of C1 on the one-output toy network. -/
theorem C1_single_output_is_default_witness :
    toyConfigOne.outputs = [("out", { labels := ["out0", "out1", "out2"], node_index := 0 })] ∧
    toyExt.Graph_new toyConfigOne.nodes toyConfigOne.layers = .ok toyGraph ∧
    ∃ g : LightweightGraph Int (List Int) (List (List Int)),
      LightweightGraph.new toyExt toyConfigOne "" = .ok g ∧
      g.m_outputs[g.m_default_output]? = some (0, ["out0", "out1", "out2"]) ∧
      ∀ (seq_first : Bool) (nodes : NodeMap (List Int)) (seq : SeqNodeMap (List (List Int))),
        g.compute seq_first nodes seq = g.compute_name seq_first nodes seq "out" :=
  ⟨rfl, rfl, C1_single_output_is_default toyExt toyConfigOne "out"
    { labels := ["out0", "out1", "out2"], node_index := 0 } toyGraph rfl rfl⟩

/-- C2: for a configuration that declares two or more outputs, construction with the
empty default name fails with a configuration error and yields no orchestrator. -/
theorem C2_ambiguous_default_fails {D R S V NC LC : Type}
    (ext : Collaborators D R S V NC LC) (config : GraphConfig V NC LC)
    (htwo : 2 ≤ config.outputs.length) :
    (∃ what, (LightweightGraph.new ext config "" : Except LwtError (LightweightGraph D R S)) =
        .error (.NNConfigurationException what)) ∧
    ∀ g : LightweightGraph D R S, LightweightGraph.new ext config "" ≠ .ok g := by
  have hlen : ¬ ("".length > 0) := by decide
  have hcnt := collect_outputs_count config.outputs [] [] 0
  have h1 : ¬ (LightweightGraph.collect_outputs config.outputs [] [] 0).2.2 = 1 := by
    rw [hcnt]; omega
  cases hgraph : ext.Graph_new config.nodes config.layers with
  | error what =>
    simp [LightweightGraph.new, hgraph]
  | ok m_graph =>
    rw [LightweightGraph.new_of_graph ext config "" m_graph hgraph]
    simp [hlen, h1]

/-- Witness of C2 on the two-output toy network. -/
theorem C2_ambiguous_default_fails_witness :
    2 ≤ toyConfigTwo.outputs.length ∧
    (∃ what, (LightweightGraph.new toyExt toyConfigTwo "" :
        Except LwtError (LightweightGraph Int (List Int) (List (List Int)))) =
        .error (.NNConfigurationException what)) ∧
    ∀ g : LightweightGraph Int (List Int) (List (List Int)),
      LightweightGraph.new toyExt toyConfigTwo "" ≠ .ok g :=
  ⟨by decide, C2_ambiguous_default_fails toyExt toyConfigTwo (by decide)⟩

/-- C3: for a configuration whose graph builds and an explicitly given (non-empty) default
name `d`, construction fails with a configuration error if and only if `d` is not among
the declared output names, and it succeeds whenever `d` is declared, whatever the number
of declared outputs. -/
theorem C3_explicit_default_must_be_declared {D R S V NC LC : Type}
    (ext : Collaborators D R S V NC LC) (config : GraphConfig V NC LC)
    (d : String) (m_graph : Graph D) (hd : d ≠ "")
    (hgraph : ext.Graph_new config.nodes config.layers = .ok m_graph) :
    ((∃ what, (LightweightGraph.new ext config d : Except LwtError (LightweightGraph D R S)) =
        .error (.NNConfigurationException what)) ↔ d ∉ config.outputs.map Prod.fst) ∧
    (d ∈ config.outputs.map Prod.fst →
      ∃ g : LightweightGraph D R S, LightweightGraph.new ext config d = .ok g) := by
  have hlen : d.length > 0 := String_length_pos_of_ne_empty d hd
  have hnone := collect_outputs_find_none config.outputs [] [] 0 d
  simp only [StdMap.find, true_and] at hnone
  rw [LightweightGraph.new_of_graph ext config d m_graph hgraph]
  simp only [hlen, if_true]
  by_cases hmem : d ∈ config.outputs.map Prod.fst
  · have hsome : ∃ idx, (LightweightGraph.collect_outputs config.outputs [] [] 0).2.1.find d
        = some idx := by
      cases hf : (LightweightGraph.collect_outputs config.outputs [] [] 0).2.1.find d with
      | none => exact absurd hmem (hnone.mp hf)
      | some idx => exact ⟨idx, rfl⟩
    obtain ⟨idx, hidx⟩ := hsome
    have hc : ¬ (LightweightGraph.collect_outputs config.outputs [] [] 0).2.1.count d = 0 := by
      rw [StdMap.count_eq_zero_iff, hidx]; simp
    simp [hc, StdMap.at_, hidx, hmem]
  · have hc : (LightweightGraph.collect_outputs config.outputs [] [] 0).2.1.count d = 0 := by
      rw [StdMap.count_eq_zero_iff]; exact hnone.mpr hmem
    simp [hc, hmem]

/-- Witness of C3: the two-output toy network with the declared default name `b`. -/
theorem C3_explicit_default_must_be_declared_witness :
    "b" ≠ "" ∧ toyExt.Graph_new toyConfigTwo.nodes toyConfigTwo.layers = .ok toyGraph ∧
    ((∃ what, (LightweightGraph.new toyExt toyConfigTwo "b" :
        Except LwtError (LightweightGraph Int (List Int) (List (List Int)))) =
        .error (.NNConfigurationException what)) ↔ "b" ∉ toyConfigTwo.outputs.map Prod.fst) ∧
    ("b" ∈ toyConfigTwo.outputs.map Prod.fst →
      ∃ g : LightweightGraph Int (List Int) (List (List Int)),
        LightweightGraph.new toyExt toyConfigTwo "b" = .ok g) :=
  ⟨by decide, rfl,
    C3_explicit_default_must_be_declared toyExt toyConfigTwo "b" toyGraph (by decide) rfl⟩

/-- C4: for an orchestrator constructed with an explicit (non-empty) default name `d`, and
for all inputs, `compute(nodes, seq)` returns exactly what `compute(nodes, seq, d)`
returns (same mapping or same failure). -/
theorem C4_default_equals_named {D R S V NC LC : Type}
    (ext : Collaborators D R S V NC LC) (config : GraphConfig V NC LC)
    (d : String) (g : LightweightGraph D R S) (hd : d ≠ "")
    (hnew : LightweightGraph.new ext config d = .ok g)
    (seq_first : Bool) (nodes : NodeMap R) (seq : SeqNodeMap S) :
    g.compute seq_first nodes seq = g.compute_name seq_first nodes seq d := by
  have hlen : d.length > 0 := String_length_pos_of_ne_empty d hd
  have hmem := (LightweightGraph.new_ok_members ext config d g hnew).2.2.2.2
  simp only [hlen, if_true] at hmem
  have hc : ¬ g.m_output_indices.count d = 0 := by
    rw [StdMap.count_eq_zero_iff, hmem]; simp
  simp [LightweightGraph.compute, LightweightGraph.compute_name, hc, StdMap.at_, hmem]

/-- Witness of C4: the two-output toy network with default `b`, on inputs for which the
default output is `r, s` (node 1). -/
theorem C4_default_equals_named_witness :
    "b" ≠ "" ∧ LightweightGraph.new toyExt toyConfigTwo "b" = .ok toyTwo ∧
    toyTwo.compute false [("x", [1, 2]), ("y", [5, 6])] [("s", [])] =
      toyTwo.compute_name false [("x", [1, 2]), ("y", [5, 6])] [("s", [])] "b" :=
  ⟨by decide, rfl,
    C4_default_equals_named toyExt toyConfigTwo "b" toyTwo (by decide) rfl false
      [("x", [1, 2]), ("y", [5, 6])] [("s", [])]⟩

/-- C5: for a constructed orchestrator and a name `s` that is not a declared output,
`compute(nodes, seq, s)` fails with the evaluation error "no output node s" for all
input mappings, complete or not; it returns no mapping, in particular not the one of
the default output. -/
theorem C5_unknown_output_fails {D R S V NC LC : Type}
    (ext : Collaborators D R S V NC LC) (config : GraphConfig V NC LC)
    (d : String) (g : LightweightGraph D R S)
    (hnew : LightweightGraph.new ext config d = .ok g)
    (s : String) (hs : s ∉ config.outputs.map Prod.fst)
    (seq_first : Bool) (nodes : NodeMap R) (seq : SeqNodeMap S) :
    g.compute_name seq_first nodes seq s =
        .error (.NNEvaluationException ("no output node " ++ s)) ∧
    (∀ m : ValueMap D, g.compute_name seq_first nodes seq s ≠ .ok m) ∧
    (∀ m : ValueMap D, g.compute seq_first nodes seq = .ok m →
      g.compute_name seq_first nodes seq s ≠ g.compute seq_first nodes seq) := by
  have hc : g.m_output_indices.count s = 0 :=
    (LightweightGraph.new_ok_count ext config d g hnew s).mpr hs
  have hres : g.compute_name seq_first nodes seq s =
      .error (.NNEvaluationException ("no output node " ++ s)) := by
    simp [LightweightGraph.compute_name, hc]
  refine ⟨hres, ?_, ?_⟩
  · intro m; rw [hres]; simp
  · intro m hm; rw [hres, hm]; simp

/-- Witness of C5: the name `nonexistent` on the two-output toy network, with complete
inputs. -/
theorem C5_unknown_output_fails_witness :
    LightweightGraph.new toyExt toyConfigTwo "b" = .ok toyTwo ∧
    "nonexistent" ∉ toyConfigTwo.outputs.map Prod.fst ∧
    toyTwo.compute_name false [("x", [1, 2]), ("y", [5, 6])] [("s", [])] "nonexistent" =
      .error (.NNEvaluationException "no output node nonexistent") ∧
    toyTwo.compute false [("x", [1, 2]), ("y", [5, 6])] [("s", [])] =
      .ok [("r", 5), ("s", 6)] :=
  ⟨rfl, by decide,
    (C5_unknown_output_fails toyExt toyConfigTwo "b" toyTwo rfl "nonexistent" (by decide)
      false [("x", [1, 2]), ("y", [5, 6])] [("s", [])]).1, by decide⟩

/-! ## Lemmas on the input lookup -/

theorem StdMap.at_of_find {T : Type} (m : StdMap T) (key : String) (v : T)
    (h : m.find key = some v) : m.at_ key = .ok v := by
  simp [StdMap.at_, h]

theorem get_input_vectors_missing {D R : Type} (nodes : NodeMap R) (preprocs : Preprocs D R)
    (h : ∃ proc ∈ preprocs, nodes.count proc.1 = 0) :
    ∃ what, get_input_vectors nodes preprocs = .error (.NNEvaluationException what) := by
  induction preprocs with
  | nil => simp at h
  | cons proc rest ih =>
    by_cases hc : nodes.count proc.1 = 0
    · exact ⟨"Can't find node " ++ proc.1, by simp [get_input_vectors, hc]⟩
    · obtain ⟨raw, hraw⟩ := (StdMap.count_ne_zero_iff nodes proc.1).mp hc
      have hrest : ∃ p ∈ rest, nodes.count p.1 = 0 := by
        obtain ⟨p, hp, hp0⟩ := h
        rcases List.mem_cons.mp hp with rfl | hp'
        · exact absurd hp0 hc
        · exact ⟨p, hp', hp0⟩
      obtain ⟨what, hwhat⟩ := ih hrest
      exact ⟨what, by simp [get_input_vectors, hc, StdMap.at_of_find _ _ _ hraw, hwhat]⟩

theorem get_input_seq_missing {D S : Type} (nodes : SeqNodeMap S) (preprocs : VecPreprocs D S)
    (h : ∃ proc ∈ preprocs, nodes.count proc.1 = 0) :
    ∃ what, get_input_seq nodes preprocs = .error (.NNEvaluationException what) := by
  induction preprocs with
  | nil => simp at h
  | cons proc rest ih =>
    by_cases hc : nodes.count proc.1 = 0
    · exact ⟨"Can't find node " ++ proc.1, by simp [get_input_seq, hc]⟩
    · obtain ⟨raw, hraw⟩ := (StdMap.count_ne_zero_iff nodes proc.1).mp hc
      have hrest : ∃ p ∈ rest, nodes.count p.1 = 0 := by
        obtain ⟨p, hp, hp0⟩ := h
        rcases List.mem_cons.mp hp with rfl | hp'
        · exact absurd hp0 hc
        · exact ⟨p, hp', hp0⟩
      obtain ⟨what, hwhat⟩ := ih hrest
      exact ⟨what, by simp [get_input_seq, hc, StdMap.at_of_find _ _ _ hraw, hwhat]⟩

/-- With every declared name present, the lookup returns one vector per declared input, in
declared order: entry `i` is preprocessor `i` applied to the raw value under name `i`. -/
theorem get_input_vectors_present {D R : Type} (nodes : NodeMap R) (preprocs : Preprocs D R)
    (h : ∀ proc ∈ preprocs, nodes.count proc.1 ≠ 0) :
    ∃ ivs, get_input_vectors nodes preprocs = .ok ivs ∧ ivs.length = preprocs.length ∧
      ∀ (i : Nat) (hi : i < preprocs.length), ∃ raw,
        nodes.find preprocs[i].1 = some raw ∧
        ivs[i]? = some (preprocs[i].2 raw) := by
  induction preprocs with
  | nil => exact ⟨[], rfl, rfl, fun i hi => absurd hi (by simp)⟩
  | cons proc rest ih =>
    have hc : nodes.count proc.1 ≠ 0 := h proc (List.mem_cons_self _ _)
    obtain ⟨raw, hraw⟩ := (StdMap.count_ne_zero_iff nodes proc.1).mp hc
    obtain ⟨ivs, hivs, hlen, hget⟩ := ih (fun p hp => h p (List.mem_cons_of_mem _ hp))
    refine ⟨proc.2 raw :: ivs, ?_, by simp [hlen], ?_⟩
    · simp [get_input_vectors, hc, StdMap.at_of_find _ _ _ hraw, hivs]
    · intro i hi
      cases i with
      | zero => exact ⟨raw, by simpa using hraw, by simp⟩
      | succ j =>
        obtain ⟨r, hr1, hr2⟩ := hget j (by simpa using hi)
        exact ⟨r, by simpa using hr1, by simpa using hr2⟩

theorem get_input_seq_present {D S : Type} (nodes : SeqNodeMap S) (preprocs : VecPreprocs D S)
    (h : ∀ proc ∈ preprocs, nodes.count proc.1 ≠ 0) :
    ∃ ims, get_input_seq nodes preprocs = .ok ims ∧ ims.length = preprocs.length ∧
      ∀ (i : Nat) (hi : i < preprocs.length), ∃ raw,
        nodes.find preprocs[i].1 = some raw ∧
        ims[i]? = some (preprocs[i].2 raw) := by
  induction preprocs with
  | nil => exact ⟨[], rfl, rfl, fun i hi => absurd hi (by simp)⟩
  | cons proc rest ih =>
    have hc : nodes.count proc.1 ≠ 0 := h proc (List.mem_cons_self _ _)
    obtain ⟨raw, hraw⟩ := (StdMap.count_ne_zero_iff nodes proc.1).mp hc
    obtain ⟨ims, hims, hlen, hget⟩ := ih (fun p hp => h p (List.mem_cons_of_mem _ hp))
    refine ⟨proc.2 raw :: ims, ?_, by simp [hlen], ?_⟩
    · simp [get_input_seq, hc, StdMap.at_of_find _ _ _ hraw, hims]
    · intro i hi
      cases i with
      | zero => exact ⟨raw, by simpa using hraw, by simp⟩
      | succ j =>
        obtain ⟨r, hr1, hr2⟩ := hget j (by simpa using hi)
        exact ⟨r, by simpa using hr1, by simpa using hr2⟩

/-- The lookup of the plain inputs fails with an evaluation error or not at all. -/
theorem get_input_vectors_error {D R : Type} (nodes : NodeMap R) (preprocs : Preprocs D R)
    (e : LwtError) (h : get_input_vectors nodes preprocs = .error e) :
    ∃ what, e = .NNEvaluationException what := by
  by_cases hm : ∃ proc ∈ preprocs, nodes.count proc.1 = 0
  · obtain ⟨what, hwhat⟩ := get_input_vectors_missing nodes preprocs hm
    rw [hwhat] at h
    exact ⟨what, (Except.error.inj h).symm⟩
  · have hall : ∀ proc ∈ preprocs, nodes.count proc.1 ≠ 0 := fun p hp hp0 => hm ⟨p, hp, hp0⟩
    obtain ⟨ivs, hivs, _⟩ := get_input_vectors_present nodes preprocs hall
    rw [hivs] at h
    cases h

/-- The lookup of the sequence inputs fails with an evaluation error or not at all. -/
theorem get_input_seq_error {D S : Type} (nodes : SeqNodeMap S) (preprocs : VecPreprocs D S)
    (e : LwtError) (h : get_input_seq nodes preprocs = .error e) :
    ∃ what, e = .NNEvaluationException what := by
  by_cases hm : ∃ proc ∈ preprocs, nodes.count proc.1 = 0
  · obtain ⟨what, hwhat⟩ := get_input_seq_missing nodes preprocs hm
    rw [hwhat] at h
    exact ⟨what, (Except.error.inj h).symm⟩
  · have hall : ∀ proc ∈ preprocs, nodes.count proc.1 ≠ 0 := fun p hp hp0 => hm ⟨p, hp, hp0⟩
    obtain ⟨ims, hims, _⟩ := get_input_seq_present nodes preprocs hall
    rw [hims] at h
    cases h

/-- With a declared input missing from the caller's mappings, no source is built: the call
of the `VectorSource` constructor is left by an evaluation error, whichever argument is
evaluated first. -/
theorem make_source_missing {D R S : Type} (seq_first : Bool) (g : LightweightGraph D R S)
    (nodes : NodeMap R) (seq : SeqNodeMap S)
    (h : (∃ proc ∈ g.m_preprocs, nodes.count proc.1 = 0) ∨
         (∃ proc ∈ g.m_vec_preprocs, seq.count proc.1 = 0)) :
    ∃ what, g.make_source seq_first nodes seq = .error (.NNEvaluationException what) := by
  unfold LightweightGraph.make_source
  cases hv : get_input_vectors nodes g.m_preprocs with
  | error e =>
    obtain ⟨what, rfl⟩ := get_input_vectors_error nodes g.m_preprocs e hv
    cases hs : get_input_seq seq g.m_vec_preprocs with
    | error e' =>
      obtain ⟨what', rfl⟩ := get_input_seq_error seq g.m_vec_preprocs e' hs
      cases seq_first <;> simp
    | ok ims => cases seq_first <;> simp
  | ok ivs =>
    cases hs : get_input_seq seq g.m_vec_preprocs with
    | error e' =>
      obtain ⟨what', rfl⟩ := get_input_seq_error seq g.m_vec_preprocs e' hs
      cases seq_first <;> simp
    | ok ims =>
      rcases h with h | h
      · obtain ⟨what, hwhat⟩ := get_input_vectors_missing nodes g.m_preprocs h
        rw [hwhat] at hv
        cases hv
      · obtain ⟨what, hwhat⟩ := get_input_seq_missing seq g.m_vec_preprocs h
        rw [hwhat] at hs
        cases hs

/-- With every declared input present, the source is built from the two lookup results,
whichever argument is evaluated first. -/
theorem make_source_present {D R S : Type} (seq_first : Bool) (g : LightweightGraph D R S)
    (nodes : NodeMap R) (seq : SeqNodeMap S)
    (ivs : List (VectorXd D)) (ims : List (MatrixXd D))
    (hv : get_input_vectors nodes g.m_preprocs = .ok ivs)
    (hs : get_input_seq seq g.m_vec_preprocs = .ok ims) :
    g.make_source seq_first nodes seq = .ok (VectorSource ivs ims) := by
  cases seq_first <;> simp [LightweightGraph.make_source, hv, hs]

/-! ## Missing inputs (C6) -/

/-- C6: for a constructed orchestrator and a call through any of the three overloads
(default, by name, by index): if a plain-input name declared in the configuration is
absent from the caller's plain-input mapping, or a declared sequence-input name is absent
from the caller's sequence mapping, the call fails with an evaluation error
(`NNEvaluationException`) and returns no mapping. -/
theorem C6_missing_input_fails {D R S V NC LC : Type}
    (ext : Collaborators D R S V NC LC) (config : GraphConfig V NC LC)
    (d : String) (g : LightweightGraph D R S)
    (hnew : LightweightGraph.new ext config d = .ok g)
    (nodes : NodeMap R) (seq : SeqNodeMap S)
    (hmiss : (∃ node ∈ config.inputs, nodes.count node.name = 0) ∨
             (∃ node ∈ config.input_sequences, seq.count node.name = 0))
    (seq_first : Bool) (sel : OutputSelector) :
    (∃ what, g.call seq_first nodes seq sel = .error (.NNEvaluationException what)) ∧
    ∀ m : ValueMap D, g.call seq_first nodes seq sel ≠ .ok m := by
  have hmem := LightweightGraph.new_ok_members ext config d g hnew
  have hmiss' : (∃ proc ∈ g.m_preprocs, nodes.count proc.1 = 0) ∨
      (∃ proc ∈ g.m_vec_preprocs, seq.count proc.1 = 0) := by
    rcases hmiss with ⟨node, hn, h0⟩ | ⟨node, hn, h0⟩
    · left
      refine ⟨(node.name, ext.InputPreprocessor_new node.variables_), ?_, h0⟩
      rw [hmem.1]
      exact List.mem_map.mpr ⟨node, hn, rfl⟩
    · right
      refine ⟨(node.name, ext.InputVectorPreprocessor_new node.variables_), ?_, h0⟩
      rw [hmem.2.1]
      exact List.mem_map.mpr ⟨node, hn, rfl⟩
  obtain ⟨what, hsrc⟩ := make_source_missing seq_first g nodes seq hmiss'
  have hidx : ∀ idx, g.compute_idx seq_first nodes seq idx =
      .error (.NNEvaluationException what) := by
    intro idx
    simp [LightweightGraph.compute_idx, hsrc]
  have hex : ∃ w, g.call seq_first nodes seq sel = .error (.NNEvaluationException w) := by
    cases sel with
    | default => exact ⟨what, by simp [LightweightGraph.call, LightweightGraph.compute, hidx]⟩
    | index idx => exact ⟨what, by simp [LightweightGraph.call, hidx]⟩
    | name output =>
      by_cases hc : g.m_output_indices.count output = 0
      · exact ⟨"no output node " ++ output,
          by simp [LightweightGraph.call, LightweightGraph.compute_name, hc]⟩
      · obtain ⟨idx, hf⟩ := (StdMap.count_ne_zero_iff _ _).mp hc
        exact ⟨what, by
          simp [LightweightGraph.call, LightweightGraph.compute_name, hc,
            StdMap.at_of_find _ _ _ hf, hidx]⟩
  refine ⟨hex, ?_⟩
  intro m hm
  obtain ⟨w, hw⟩ := hex
  rw [hw] at hm
  cases hm

/-- Witness of C6: the two-output toy network, called by the declared name `a` with the
plain input `y` missing. -/
theorem C6_missing_input_fails_witness :
    LightweightGraph.new toyExt toyConfigTwo "b" = .ok toyTwo ∧
    ((∃ node ∈ toyConfigTwo.inputs,
        StdMap.count ([("x", [1, 2])] : NodeMap (List Int)) node.name = 0) ∨
     (∃ node ∈ toyConfigTwo.input_sequences,
        StdMap.count ([("s", [])] : SeqNodeMap (List (List Int))) node.name = 0)) ∧
    (∃ what, toyTwo.call false [("x", [1, 2])] [("s", [])] (.name "a") =
        .error (.NNEvaluationException what)) ∧
    ∀ m : ValueMap Int, toyTwo.call false [("x", [1, 2])] [("s", [])] (.name "a") ≠ .ok m :=
  ⟨rfl, Or.inl ⟨{ name := "y", variables_ := () }, by simp [toyConfigTwo], by decide⟩,
    C6_missing_input_fails toyExt toyConfigTwo "b" toyTwo rfl [("x", [1, 2])] [("s", [])]
      (Or.inl ⟨{ name := "y", variables_ := () }, by simp [toyConfigTwo], by decide⟩)
      false (.name "a")⟩

/-! ## The label zip (C7) -/

theorem StdMap.find_replace {T : Type} (m : StdMap T) (key : String) (v : T) (k' : String) :
    (m.replace key v).find k' =
      if k' = key then (m.find key).map (fun _ => v) else m.find k' := by
  induction m with
  | nil => simp [StdMap.replace, StdMap.find]
  | cons hd rest ih =>
    obtain ⟨k, w⟩ := hd
    simp only [StdMap.replace]
    by_cases hk : key = k
    · subst hk
      by_cases h1 : k' = key
      · simp [StdMap.find, h1]
      · simp [StdMap.find, h1]
    · simp only [hk, if_false, StdMap.find, ih]
      by_cases h1 : k' = k
      · have h2 : ¬ k = key := fun h3 => hk h3.symm
        simp [h1, h2]
      · simp [h1]

theorem StdMap.find_assign {T : Type} (m : StdMap T) (key : String) (v : T) (k' : String) :
    (m.assign key v).find k' = if k' = key then some v else m.find k' := by
  unfold StdMap.assign
  cases h : m.find key with
  | none => simp [StdMap.find_insert_new m key v k' h]
  | some w =>
    by_cases hk : k' = key
    · simp [StdMap.find_replace, hk, h]
    · simp [StdMap.find_replace, hk]

theorem StdMap.length_insert_new {T : Type} (m : StdMap T) (key : String) (v : T) :
    (m.insert_new key v).length = m.length + 1 := by
  induction m with
  | nil => simp [StdMap.insert_new]
  | cons hd rest ih =>
    obtain ⟨k, w⟩ := hd
    simp only [StdMap.insert_new]
    by_cases hlt : key.data < k.data
    · simp [hlt]
    · simp [hlt, ih]

theorem StdMap.length_assign_new {T : Type} (m : StdMap T) (key : String) (v : T)
    (h : m.find key = none) : (m.assign key v).length = m.length + 1 := by
  simp [StdMap.assign, h, StdMap.length_insert_new]

/-- The loop succeeds when the result vector has an entry for every label still to be
visited. Afterwards a key that is not a label keeps its old entry, and a label that does
not occur again further down the list maps to the vector entry at its own position. -/
theorem zip_labels_find {D : Type} (result : VectorXd D) (labels : List String) :
    ∀ (iii : Nat) (output : ValueMap D), iii + labels.length ≤ result.length →
      ∃ out, LightweightGraph.zip_labels result labels iii output = .ok out ∧
        (∀ key, key ∉ labels → StdMap.find out key = StdMap.find output key) ∧
        (∀ (j : Nat) (hj : j < labels.length),
          (∀ j', j < j' → labels[j']? ≠ some labels[j]) →
          StdMap.find out labels[j] = result[iii + j]?) := by
  induction labels with
  | nil =>
    intro iii output _
    exact ⟨output, rfl, fun _ _ => rfl, fun j hj => absurd hj (by simp)⟩
  | cons label rest ih =>
    intro iii output hlen
    have hiii : iii < result.length := by simp at hlen; omega
    obtain ⟨out, hout, hkeep, hpos⟩ :=
      ih (iii + 1) (StdMap.assign output label result[iii]) (by simp at hlen; omega)
    refine ⟨out, ?_, ?_, ?_⟩
    · simp [LightweightGraph.zip_labels, List.getElem?_eq_getElem hiii, hout]
    · intro key hkey
      have h1 : key ∉ rest := fun h => hkey (List.mem_cons_of_mem _ h)
      have h2 : ¬ key = label := fun h => hkey (h ▸ List.mem_cons_self _ _)
      rw [hkeep key h1, StdMap.find_assign]
      simp [h2]
    · intro j hj hlast
      cases j with
      | zero =>
        have hnot : label ∉ rest := by
          intro hmem
          obtain ⟨n, hn, hget⟩ := List.getElem_of_mem hmem
          apply hlast (n + 1) (by omega)
          simp [List.getElem?_eq_getElem hn, hget]
        simp only [List.getElem_cons_zero, Nat.add_zero]
        rw [hkeep label hnot, StdMap.find_assign]
        simp [List.getElem?_eq_getElem hiii]
      | succ k =>
        have hk : k < rest.length := by simpa using hj
        have hrec := hpos k hk (by
          intro j' hj' h
          apply hlast (j' + 1) (by omega)
          simpa using h)
        simp only [List.getElem_cons_succ]
        rw [hrec]
        congr 1
        omega

/-- When the labels are pairwise distinct and none of them is a key yet, the loop adds
one entry per label. -/
theorem zip_labels_length {D : Type} (result : VectorXd D) (labels : List String) :
    ∀ (iii : Nat) (output out : ValueMap D), labels.Nodup →
      (∀ l ∈ labels, StdMap.find output l = none) →
      LightweightGraph.zip_labels result labels iii output = .ok out →
      out.length = output.length + labels.length := by
  induction labels with
  | nil =>
    intro iii output out _ _ h
    simp [LightweightGraph.zip_labels] at h
    simp [h]
  | cons label rest ih =>
    intro iii output out hnd hfresh h
    simp only [LightweightGraph.zip_labels] at h
    cases hget : result[iii]? with
    | none => simp [hget] at h
    | some value =>
      simp only [hget] at h
      have hnd' := List.nodup_cons.mp hnd
      have hfresh' : ∀ l ∈ rest, StdMap.find (StdMap.assign output label value) l = none := by
        intro l hl
        have hne : ¬ l = label := fun h => hnd'.1 (h ▸ hl)
        rw [StdMap.find_assign]
        simp [hne, hfresh l (List.mem_cons_of_mem _ hl)]
      rw [ih (iii + 1) _ out hnd'.2 hfresh' h,
        StdMap.length_assign_new output label value (hfresh label (List.mem_cons_self _ _))]
      simp
      omega

/-- C7: for a constructed orchestrator and its `idx`-th declared output, with node index
`o.node_index` and pairwise distinct labels `o.labels`: in a call where the source is
built (all declared inputs are present) and the graph's vector for that node has as many
entries as there are labels, `compute` returns a mapping whose keys are exactly the
labels, one entry per label, and label `i` maps to entry `i` of the graph's vector. -/
theorem C7_label_zip {D R S V NC LC : Type}
    (ext : Collaborators D R S V NC LC) (config : GraphConfig V NC LC)
    (d : String) (g : LightweightGraph D R S)
    (hnew : LightweightGraph.new ext config d = .ok g)
    (idx : Nat) (name : String) (o : OutputNodeConfig)
    (hdecl : config.outputs[idx]? = some (name, o))
    (hnodup : o.labels.Nodup)
    (seq_first : Bool) (nodes : NodeMap R) (seq : SeqNodeMap S)
    (source : ISource D) (result : VectorXd D)
    (hsrc : g.make_source seq_first nodes seq = .ok source)
    (hres : g.m_graph.compute source o.node_index = .ok result)
    (hlen : result.length = o.labels.length) :
    ∃ output : ValueMap D, g.compute_idx seq_first nodes seq idx = .ok output ∧
      (∀ key, StdMap.count output key = 1 ↔ key ∈ o.labels) ∧
      output.length = o.labels.length ∧
      ∀ (i : Nat) (hi : i < o.labels.length),
        StdMap.find output o.labels[i] = result[i]? := by
  have hmem := LightweightGraph.new_ok_members ext config d g hnew
  have hat : vector_at g.m_outputs idx = .ok (o.node_index, o.labels) := by
    simp [vector_at, hmem.2.2.1, List.getElem?_map, hdecl]
  obtain ⟨out, hout, hkeep, hpos⟩ :=
    zip_labels_find result o.labels 0 ([] : ValueMap D) (by omega)
  have hlast : ∀ (j : Nat) (hj : j < o.labels.length) (j' : Nat), j < j' →
      o.labels[j']? ≠ some o.labels[j] := by
    intro j hj j' hlt heq
    obtain ⟨hj', hget⟩ := List.getElem?_eq_some_iff.mp heq
    have := (List.Nodup.getElem_inj_iff hnodup).mp hget
    omega
  refine ⟨out, ?_, ?_, ?_, ?_⟩
  · simp [LightweightGraph.compute_idx, LightweightGraph.compute_from_source, hsrc, hat,
      hres, hout]
  · intro key
    by_cases hkey : key ∈ o.labels
    · obtain ⟨j, hj, hget⟩ := List.getElem_of_mem hkey
      have hfind := hpos j hj (hlast j hj)
      rw [hget, Nat.zero_add, List.getElem?_eq_getElem (by omega)] at hfind
      simp [StdMap.count, hfind, hkey]
    · have hfind := hkeep key hkey
      simp [StdMap.count, hfind, StdMap.find, hkey]
  · have := zip_labels_length result o.labels 0 ([] : ValueMap D) out hnodup
      (fun _ _ => rfl) hout
    simpa using this
  · intro i hi
    simpa using hpos i hi (hlast i hi)

/-- Witness of C7: the one-output toy network on the input `x = (1, 2, 3)`. -/
theorem C7_label_zip_witness :
    LightweightGraph.new toyExt toyConfigOne "" = .ok toyOne ∧
    toyConfigOne.outputs[0]? =
      some ("out", { labels := ["out0", "out1", "out2"], node_index := 0 }) ∧
    ["out0", "out1", "out2"].Nodup ∧
    toyOne.make_source false [("x", [1, 2, 3])] [] = .ok (VectorSource [[1, 2, 3]] []) ∧
    toyOne.m_graph.compute (VectorSource [[1, 2, 3]] []) 0 = .ok [1, 2, 3] ∧
    ∃ output : ValueMap Int,
      toyOne.compute_idx false [("x", [1, 2, 3])] [] 0 = .ok output ∧
      (∀ key, StdMap.count output key = 1 ↔ key ∈ ["out0", "out1", "out2"]) ∧
      output.length = 3 ∧
      ∀ (i : Nat) (hi : i < 3),
        StdMap.find output (["out0", "out1", "out2"].get ⟨i, hi⟩) = [1, 2, 3][i]? :=
  ⟨rfl, rfl, by decide, rfl, rfl,
    C7_label_zip toyExt toyConfigOne "" toyOne rfl 0 "out"
      { labels := ["out0", "out1", "out2"], node_index := 0 } rfl (by decide)
      false [("x", [1, 2, 3])] [] (VectorSource [[1, 2, 3]] []) [1, 2, 3] rfl rfl rfl⟩

/-! ## The input lists and the source (C8) -/

/-- C8: for a constructed orchestrator and caller mappings that contain every declared
plain-input name and every declared sequence-input name, `get_input_vectors` returns one
vector per declared plain input, entry `i` being the preprocessor of the `i`-th declared
input applied to the caller's value under the `i`-th declared name (declared order);
`get_input_seq` does the same for the declared sequence inputs; the source built from the
two lists serves them at slots `0..m-1`, and it is the source on which `compute` calls
the graph. -/
theorem C8_inputs_in_declared_order {D R S V NC LC : Type}
    (ext : Collaborators D R S V NC LC) (config : GraphConfig V NC LC)
    (d : String) (g : LightweightGraph D R S)
    (hnew : LightweightGraph.new ext config d = .ok g)
    (nodes : NodeMap R) (seq : SeqNodeMap S)
    (hall : ∀ node ∈ config.inputs, nodes.count node.name ≠ 0)
    (hallseq : ∀ node ∈ config.input_sequences, seq.count node.name ≠ 0) :
    ∃ (ivs : List (VectorXd D)) (ims : List (MatrixXd D)),
      get_input_vectors nodes g.m_preprocs = .ok ivs ∧
      ivs.length = config.inputs.length ∧
      get_input_seq seq g.m_vec_preprocs = .ok ims ∧
      ims.length = config.input_sequences.length ∧
      (∀ (i : Nat) (hi : i < config.inputs.length), ∃ raw,
        nodes.find config.inputs[i].name = some raw ∧
        ivs[i]? = some (ext.InputPreprocessor_new config.inputs[i].variables_ raw) ∧
        (VectorSource ivs ims).at_ i =
          .ok (ext.InputPreprocessor_new config.inputs[i].variables_ raw)) ∧
      (∀ (i : Nat) (hi : i < config.input_sequences.length), ∃ raw,
        seq.find config.input_sequences[i].name = some raw ∧
        ims[i]? =
          some (ext.InputVectorPreprocessor_new config.input_sequences[i].variables_ raw) ∧
        (VectorSource ivs ims).matrix_at i =
          .ok (ext.InputVectorPreprocessor_new config.input_sequences[i].variables_ raw)) ∧
      (∀ seq_first : Bool, g.make_source seq_first nodes seq = .ok (VectorSource ivs ims)) ∧
      (∀ (seq_first : Bool) (idx : Nat),
        g.compute_idx seq_first nodes seq idx =
          g.compute_from_source (VectorSource ivs ims) idx) := by
  have hmem := LightweightGraph.new_ok_members ext config d g hnew
  have hall' : ∀ proc ∈ g.m_preprocs, nodes.count proc.1 ≠ 0 := by
    intro proc hp
    rw [hmem.1] at hp
    obtain ⟨node, hn, rfl⟩ := List.mem_map.mp hp
    exact hall node hn
  have hallseq' : ∀ proc ∈ g.m_vec_preprocs, seq.count proc.1 ≠ 0 := by
    intro proc hp
    rw [hmem.2.1] at hp
    obtain ⟨node, hn, rfl⟩ := List.mem_map.mp hp
    exact hallseq node hn
  obtain ⟨ivs, hivs, hilen, higet⟩ := get_input_vectors_present nodes g.m_preprocs hall'
  obtain ⟨ims, hims, hmlen, hmget⟩ := get_input_seq_present seq g.m_vec_preprocs hallseq'
  have hsrc : ∀ seq_first : Bool,
      g.make_source seq_first nodes seq = .ok (VectorSource ivs ims) :=
    fun seq_first => make_source_present seq_first g nodes seq ivs ims hivs hims
  have hl1 : g.m_preprocs.length = config.inputs.length := by simp [hmem.1]
  have hl2 : g.m_vec_preprocs.length = config.input_sequences.length := by simp [hmem.2.1]
  refine ⟨ivs, ims, hivs, by omega, hims, by omega, ?_, ?_, hsrc, ?_⟩
  · intro i hi
    have hb : i < g.m_preprocs.length := by omega
    obtain ⟨raw, hraw, hget⟩ := higet i hb
    have hproc : g.m_preprocs[i] =
        (config.inputs[i].name, ext.InputPreprocessor_new config.inputs[i].variables_) := by
      simp [hmem.1]
    rw [hproc] at hraw hget
    exact ⟨raw, hraw, hget, by simp [VectorSource, hget]⟩
  · intro i hi
    have hb : i < g.m_vec_preprocs.length := by omega
    obtain ⟨raw, hraw, hget⟩ := hmget i hb
    have hproc : g.m_vec_preprocs[i] =
        (config.input_sequences[i].name,
          ext.InputVectorPreprocessor_new config.input_sequences[i].variables_) := by
      simp [hmem.2.1]
    rw [hproc] at hraw hget
    exact ⟨raw, hraw, hget, by simp [VectorSource, hget]⟩
  · intro seq_first idx
    simp [LightweightGraph.compute_idx, hsrc seq_first]

/-- Witness of C8: the two-output toy network; the caller lists `y` before `x`, the input
vectors come out in the declared order `x`, `y`. -/
theorem C8_inputs_in_declared_order_witness :
    LightweightGraph.new toyExt toyConfigTwo "b" = .ok toyTwo ∧
    get_input_vectors ([("y", [5, 6]), ("x", [1, 2])] : NodeMap (List Int))
      toyTwo.m_preprocs = .ok [[1, 2], [5, 6]] ∧
    ∃ (ivs : List (VectorXd Int)) (ims : List (MatrixXd Int)),
      get_input_vectors [("y", [5, 6]), ("x", [1, 2])] toyTwo.m_preprocs = .ok ivs ∧
      ivs.length = toyConfigTwo.inputs.length ∧
      get_input_seq [("s", [[7]])] toyTwo.m_vec_preprocs = .ok ims ∧
      ims.length = toyConfigTwo.input_sequences.length ∧
      (∀ (i : Nat) (hi : i < toyConfigTwo.inputs.length), ∃ raw,
        StdMap.find ([("y", [5, 6]), ("x", [1, 2])] : NodeMap (List Int))
          toyConfigTwo.inputs[i].name = some raw ∧
        ivs[i]? = some (toyExt.InputPreprocessor_new
          toyConfigTwo.inputs[i].variables_ raw) ∧
        (VectorSource ivs ims).at_ i = .ok (toyExt.InputPreprocessor_new
          toyConfigTwo.inputs[i].variables_ raw)) ∧
      (∀ (i : Nat) (hi : i < toyConfigTwo.input_sequences.length), ∃ raw,
        StdMap.find ([("s", [[7]])] : SeqNodeMap (List (List Int)))
          toyConfigTwo.input_sequences[i].name = some raw ∧
        ims[i]? = some (toyExt.InputVectorPreprocessor_new
          toyConfigTwo.input_sequences[i].variables_ raw) ∧
        (VectorSource ivs ims).matrix_at i = .ok (toyExt.InputVectorPreprocessor_new
          toyConfigTwo.input_sequences[i].variables_ raw)) ∧
      (∀ seq_first : Bool,
        toyTwo.make_source seq_first [("y", [5, 6]), ("x", [1, 2])] [("s", [[7]])] =
          .ok (VectorSource ivs ims)) ∧
      (∀ (seq_first : Bool) (idx : Nat),
        toyTwo.compute_idx seq_first [("y", [5, 6]), ("x", [1, 2])] [("s", [[7]])] idx =
          toyTwo.compute_from_source (VectorSource ivs ims) idx) :=
  ⟨rfl, by decide,
    C8_inputs_in_declared_order toyExt toyConfigTwo "b" toyTwo rfl
      [("y", [5, 6]), ("x", [1, 2])] [("s", [[7]])]
      (by intro node hn; simp [toyConfigTwo] at hn; rcases hn with rfl | rfl <;> decide)
      (by intro node hn; simp [toyConfigTwo] at hn; subst hn; decide)⟩

/-! ## Repeated calls (C9) -/

/-- When every listed node returns a vector of its declared width, the concatenation
succeeds, its length is the sum of the widths, and the vector of node `i` sits at the
offset given by the widths of the nodes before it. -/
theorem ConcatenateNode.concat_layout {D : Type} (source : ISource D)
    (sources : List (INode D))
    (hwidth : ∀ node ∈ sources, ∃ v, node.compute source = .ok v ∧
      v.length = node.n_outputs) :
    ∃ output, ConcatenateNode.concat source sources = .ok output ∧
      output.length = (sources.map INode.n_outputs).sum ∧
      ∀ (i : Nat) (hi : i < sources.length), ∃ v,
        sources[i].compute source = .ok v ∧
        ∀ j, j < sources[i].n_outputs →
          output[((sources.take i).map INode.n_outputs).sum + j]? = v[j]? := by
  induction sources with
  | nil => exact ⟨[], rfl, rfl, fun i hi => absurd hi (by simp)⟩
  | cons node rest ih =>
    obtain ⟨v, hv, hvlen⟩ := hwidth node (List.mem_cons_self _ _)
    obtain ⟨out, hout, holen, hpos⟩ := ih (fun n hn => hwidth n (List.mem_cons_of_mem _ hn))
    refine ⟨v ++ out, by simp [ConcatenateNode.concat, hv, hout], by simp [hvlen, holen], ?_⟩
    intro i hi
    cases i with
    | zero =>
      refine ⟨v, by simpa using hv, ?_⟩
      intro j hj
      simp only [List.getElem_cons_zero] at hj
      simp [List.getElem?_append_left (show j < v.length by omega)]
    | succ k =>
      obtain ⟨w, hw, hwpos⟩ := hpos k (by simpa using hi)
      refine ⟨w, by simpa using hw, ?_⟩
      intro j hj
      simp only [List.getElem_cons_succ] at hj
      simp only [List.take_succ_cons, List.map_cons, List.sum_cons]
      rw [List.getElem?_append_right (by omega), ← hwpos j hj]
      congr 1
      omega

/-- C10: for a `ConcatenateNode` built over source nodes of widths `w_1 .. w_n`, that is,
nodes that declare these widths and return vectors of these lengths on the source at
hand, `n_outputs()` is `w_1 + ... + w_n`, and `compute` returns a vector of exactly that
length in which the entries of the `i`-th source node occupy the positions from
`w_1 + ... + w_(i-1)` up to `w_1 + ... + w_i`, in source-list order. -/
theorem C10_concatenate_layout {D : Type} (sources : List (INode D)) (source : ISource D)
    (hwidth : ∀ node ∈ sources, ∃ v, node.compute source = .ok v ∧
      v.length = node.n_outputs) :
    (ConcatenateNode sources).n_outputs = (sources.map INode.n_outputs).sum ∧
    ∃ output, (ConcatenateNode sources).compute source = .ok output ∧
      output.length = (ConcatenateNode sources).n_outputs ∧
      ∀ (i : Nat) (hi : i < sources.length), ∃ v,
        sources[i].compute source = .ok v ∧ v.length = sources[i].n_outputs ∧
        ∀ j, j < sources[i].n_outputs →
          output[((sources.take i).map INode.n_outputs).sum + j]? = v[j]? := by
  obtain ⟨output, hout, hlen, hpos⟩ := ConcatenateNode.concat_layout source sources hwidth
  refine ⟨rfl, output, hout, hlen, ?_⟩
  intro i hi
  obtain ⟨v, hv, hvpos⟩ := hpos i hi
  obtain ⟨v', hv', hvlen⟩ := hwidth sources[i] (List.getElem_mem _)
  rw [hv] at hv'
  cases hv'
  exact ⟨v, hv, hvlen, hvpos⟩

/-- Witness of C10: two input nodes of widths 2 and 3 on a source that holds
vectors of these lengths; the result is the five entries in source-list order. -/
theorem C10_concatenate_layout_witness :
    (∀ node ∈ [(InputNode 0 2 : INode Int), InputNode 1 3], ∃ v,
      node.compute (VectorSource [[1, 2], [3, 4, 5]] []) = .ok v ∧
      v.length = node.n_outputs) ∧
    (ConcatenateNode [(InputNode 0 2 : INode Int), InputNode 1 3]).compute
      (VectorSource [[1, 2], [3, 4, 5]] []) = .ok [1, 2, 3, 4, 5] ∧
    ((ConcatenateNode [(InputNode 0 2 : INode Int), InputNode 1 3]).n_outputs =
      ([(InputNode 0 2 : INode Int), InputNode 1 3].map INode.n_outputs).sum ∧
    ∃ output, (ConcatenateNode [(InputNode 0 2 : INode Int), InputNode 1 3]).compute
        (VectorSource [[1, 2], [3, 4, 5]] []) = .ok output ∧
      output.length = (ConcatenateNode [(InputNode 0 2 : INode Int), InputNode 1 3]).n_outputs ∧
      ∀ (i : Nat) (hi : i < [(InputNode 0 2 : INode Int), InputNode 1 3].length), ∃ v,
        [(InputNode 0 2 : INode Int), InputNode 1 3][i].compute
          (VectorSource [[1, 2], [3, 4, 5]] []) = .ok v ∧
        v.length = [(InputNode 0 2 : INode Int), InputNode 1 3][i].n_outputs ∧
        ∀ j, j < [(InputNode 0 2 : INode Int), InputNode 1 3][i].n_outputs →
          output[(([(InputNode 0 2 : INode Int), InputNode 1 3].take i).map
            INode.n_outputs).sum + j]? = v[j]?) :=
  have hw : ∀ node ∈ [(InputNode 0 2 : INode Int), InputNode 1 3], ∃ v,
      node.compute (VectorSource [[1, 2], [3, 4, 5]] []) = .ok v ∧
      v.length = node.n_outputs := by
    intro node hn
    simp only [List.mem_cons, List.mem_singleton, List.not_mem_nil, or_false] at hn
    rcases hn with rfl | rfl
    · exact ⟨[1, 2], rfl, rfl⟩
    · exact ⟨[3, 4, 5], rfl, rfl⟩
  ⟨hw, rfl, C10_concatenate_layout [(InputNode 0 2 : INode Int), InputNode 1 3]
    (VectorSource [[1, 2], [3, 4, 5]] []) hw⟩

/-! ## Vector length against label count (C11) -/

/-- The loop reads a position that the result vector does not have as soon as there are
more labels left than entries from the counter on. -/
theorem zip_labels_short {D : Type} (result : VectorXd D) (labels : List String) :
    ∀ (iii : Nat) (output : ValueMap D), iii ≤ result.length →
      result.length < iii + labels.length →
      LightweightGraph.zip_labels result labels iii output =
        .error .eigen_index_out_of_bounds := by
  induction labels with
  | nil =>
    intro iii output h1 h2
    simp at h2
    omega
  | cons label rest ih =>
    intro iii output h1 h2
    by_cases hlt : iii < result.length
    · have h3 : result.length < iii + 1 + rest.length := by simp at h2; omega
      simp [LightweightGraph.zip_labels, List.getElem?_eq_getElem hlt,
        ih (iii + 1) _ (by omega) h3]
    · have hnone : result[iii]? = none := List.getElem?_eq_none (by omega)
      simp [LightweightGraph.zip_labels, hnone]

/-- C11, as stated, fails: the constructor accepts an output with three labels on a node
whose vector has two entries, and the label zip of `compute` then reads position 2 of
that vector, which does not exist. -/
theorem C11_counterexample :
    LightweightGraph.new fixedExt fixedConfig "" = .ok fixedOne ∧
    fixedConfig.outputs = [("out", { labels := ["a", "b", "c"], node_index := 0 })] ∧
    fixedOne.m_graph.compute (VectorSource [] []) 0 = .ok [7, 8] ∧
    ([7, 8] : VectorXd Int).length ≠ ["a", "b", "c"].length ∧
    fixedOne.compute_idx false [] [] 0 = .error .eigen_index_out_of_bounds ∧
    fixedOne.compute false [] [] = .error .eigen_index_out_of_bounds :=
  ⟨rfl, rfl, rfl, by decide, by decide, by decide⟩

/-- C11, amended: neither the constructor nor `compute` compares the length of the graph's
vector with the number of labels; for a constructed orchestrator and its `idx`-th
declared output, in a call where the source is built and the graph returns a vector for
the output's node, the label zip reads only existing positions of that vector (and
`compute` returns a mapping) when the vector has at least as many entries as there are
labels, and it reads a position that does not exist exactly when the vector is
shorter. -/
theorem C11_zip_reads_inside_vector {D R S V NC LC : Type}
    (ext : Collaborators D R S V NC LC) (config : GraphConfig V NC LC)
    (d : String) (g : LightweightGraph D R S)
    (hnew : LightweightGraph.new ext config d = .ok g)
    (idx : Nat) (name : String) (o : OutputNodeConfig)
    (hdecl : config.outputs[idx]? = some (name, o))
    (seq_first : Bool) (nodes : NodeMap R) (seq : SeqNodeMap S)
    (source : ISource D) (result : VectorXd D)
    (hsrc : g.make_source seq_first nodes seq = .ok source)
    (hres : g.m_graph.compute source o.node_index = .ok result) :
    (o.labels.length ≤ result.length →
      ∃ output : ValueMap D, g.compute_idx seq_first nodes seq idx = .ok output) ∧
    (g.compute_idx seq_first nodes seq idx = .error .eigen_index_out_of_bounds ↔
      result.length < o.labels.length) := by
  have hmem := LightweightGraph.new_ok_members ext config d g hnew
  have hat : vector_at g.m_outputs idx = .ok (o.node_index, o.labels) := by
    simp [vector_at, hmem.2.2.1, List.getElem?_map, hdecl]
  have hcomp : g.compute_idx seq_first nodes seq idx =
      LightweightGraph.zip_labels result o.labels 0 [] := by
    simp [LightweightGraph.compute_idx, LightweightGraph.compute_from_source, hsrc, hat,
      hres]
  have hok : o.labels.length ≤ result.length →
      ∃ output : ValueMap D, g.compute_idx seq_first nodes seq idx = .ok output := by
    intro hlen
    obtain ⟨out, hout, _⟩ := zip_labels_find result o.labels 0 ([] : ValueMap D) (by omega)
    exact ⟨out, by rw [hcomp, hout]⟩
  refine ⟨hok, ?_, ?_⟩
  · intro herr
    by_contra hge
    obtain ⟨out, hout⟩ := hok (by omega)
    rw [hout] at herr
    cases herr
  · intro hlt
    rw [hcomp]
    exact zip_labels_short result o.labels 0 [] (by omega) (by omega)

/-- Witness of C11 (amended): the one-output toy network with three labels, on an input
`x` of three entries. -/
theorem C11_zip_reads_inside_vector_witness :
    LightweightGraph.new toyExt toyConfigOne "" = .ok toyOne ∧
    toyConfigOne.outputs[0]? =
      some ("out", { labels := ["out0", "out1", "out2"], node_index := 0 }) ∧
    toyOne.make_source false [("x", [1, 2, 3])] [] = .ok (VectorSource [[1, 2, 3]] []) ∧
    toyOne.m_graph.compute (VectorSource [[1, 2, 3]] []) 0 = .ok [1, 2, 3] ∧
    (["out0", "out1", "out2"].length ≤ ([1, 2, 3] : VectorXd Int).length →
      ∃ output : ValueMap Int,
        toyOne.compute_idx false [("x", [1, 2, 3])] [] 0 = .ok output) ∧
    (toyOne.compute_idx false [("x", [1, 2, 3])] [] 0 = .error .eigen_index_out_of_bounds ↔
      ([1, 2, 3] : VectorXd Int).length < ["out0", "out1", "out2"].length) :=
  ⟨rfl, rfl, rfl, rfl,
    C11_zip_reads_inside_vector toyExt toyConfigOne "" toyOne rfl 0 "out"
      { labels := ["out0", "out1", "out2"], node_index := 0 } rfl
      false [("x", [1, 2, 3])] [] (VectorSource [[1, 2, 3]] []) [1, 2, 3] rfl rfl⟩

/-! ## The name lookup points into the output list (C12) -/

/-- A name that is in the lookup before the loop keeps its index. -/
theorem collect_outputs_find_kept (outs : List (String × OutputNodeConfig))
    (acc : List (Nat × List String)) (idxs : StdMap Nat) (n : Nat) (name : String)
    (v : Nat) (h : idxs.find name = some v) :
    (LightweightGraph.collect_outputs outs acc idxs n).2.1.find name = some v := by
  induction outs generalizing acc idxs n with
  | nil => simpa [LightweightGraph.collect_outputs] using h
  | cons node rest ih =>
    simp only [LightweightGraph.collect_outputs]
    apply ih
    rw [StdMap.find_emplace]
    by_cases hk : name = node.1
    · subst hk
      simp [h]
    · simp [hk, h]

/-- A name that is new to the lookup gets the counter value of its first declaration. -/
theorem collect_outputs_find_new (outs : List (String × OutputNodeConfig))
    (acc : List (Nat × List String)) (idxs : StdMap Nat) (n : Nat) (name : String)
    (h : idxs.find name = none) (hmem : name ∈ outs.map Prod.fst) :
    (LightweightGraph.collect_outputs outs acc idxs n).2.1.find name =
      some (n + (outs.map Prod.fst).indexOf name) := by
  induction outs generalizing acc idxs n with
  | nil => simp at hmem
  | cons node rest ih =>
    simp only [LightweightGraph.collect_outputs, List.map_cons]
    by_cases hk : name = node.1
    · subst hk
      rw [collect_outputs_find_kept rest _ _ _ node.1 n (by simp [StdMap.find_emplace, h])]
      simp
    · have hrest : name ∈ rest.map Prod.fst := by
        simp only [List.map_cons, List.mem_cons] at hmem
        rcases hmem with h1 | h1
        · exact absurd h1 hk
        · exact h1
      rw [ih _ _ (n + 1) (by simp [StdMap.find_emplace, hk, h]) hrest,
        List.indexOf_cons_ne _ (fun h1 => hk h1.symm)]
      congr 1
      omega

/-- The entry of a list at the first position of one of its first components carries
that component. -/
theorem getElem_indexOf_fst {β : Type} (outs : List (String × β)) (name : String)
    (hmem : name ∈ outs.map Prod.fst) :
    ∃ o, outs[(outs.map Prod.fst).indexOf name]? = some (name, o) ∧
      ((outs.map Prod.fst).Nodup → ∀ o', (name, o') ∈ outs → o' = o) := by
  induction outs with
  | nil => simp at hmem
  | cons node rest ih =>
    by_cases hk : name = node.1
    · subst hk
      refine ⟨node.2, by simp, ?_⟩
      intro hnd o' ho'
      simp only [List.map_cons, List.nodup_cons] at hnd
      rcases List.mem_cons.mp ho' with h1 | h1
      · rw [← h1]
      · exact absurd (List.mem_map.mpr ⟨(node.1, o'), h1, rfl⟩) hnd.1
    · have hrest : name ∈ rest.map Prod.fst := by
        simp only [List.map_cons, List.mem_cons] at hmem
        rcases hmem with h1 | h1
        · exact absurd h1 hk
        · exact h1
      obtain ⟨o, ho, huniq⟩ := ih hrest
      refine ⟨o, ?_, ?_⟩
      · simp only [List.map_cons]
        rw [List.indexOf_cons_ne _ (fun h1 => hk h1.symm)]
        simpa using ho
      · intro hnd o' ho'
        simp only [List.map_cons, List.nodup_cons] at hnd
        rcases List.mem_cons.mp ho' with h1 | h1
        · exact absurd (by rw [← h1]) hk
        · exact huniq hnd.2 o' h1

/-- C12: after a successful construction the output list has one entry per declared
output, in declared order; every declared output name is mapped by the name lookup to a
position `p` below the length of the output list, and the entry at `p` is the (node
index, labels) pair declared under that name (the pair of the name when names are
declared once, as in a `std::map`); the default index is below the length of the output
list. Hence every index that the default and the by-name overloads hand to the by-index
overload is in range. -/
theorem C12_lookup_points_into_outputs {D R S V NC LC : Type}
    (ext : Collaborators D R S V NC LC) (config : GraphConfig V NC LC)
    (d : String) (g : LightweightGraph D R S)
    (hnew : LightweightGraph.new ext config d = .ok g) :
    g.m_outputs = config.outputs.map (fun node => (node.2.node_index, node.2.labels)) ∧
    g.m_outputs.length = config.outputs.length ∧
    (∀ name ∈ config.outputs.map Prod.fst, ∃ (p : Nat) (o : OutputNodeConfig),
      g.m_output_indices.find name = some p ∧ p < g.m_outputs.length ∧
      config.outputs[p]? = some (name, o) ∧
      g.m_outputs[p]? = some (o.node_index, o.labels) ∧
      ((config.outputs.map Prod.fst).Nodup →
        ∀ o', (name, o') ∈ config.outputs → o' = o)) ∧
    g.m_default_output < g.m_outputs.length ∧
    (∀ (name : String) (idx : Nat),
      g.m_output_indices.at_ name = .ok idx → idx < g.m_outputs.length) := by
  have hmem := LightweightGraph.new_ok_members ext config d g hnew
  have hlen : g.m_outputs.length = config.outputs.length := by simp [hmem.2.2.1]
  have hfind : ∀ name ∈ config.outputs.map Prod.fst,
      g.m_output_indices.find name = some ((config.outputs.map Prod.fst).indexOf name) := by
    intro name hname
    rw [hmem.2.2.2.1, collect_outputs_find_new config.outputs [] [] 0 name rfl hname]
    simp
  have hrange : ∀ (name : String) (idx : Nat),
      g.m_output_indices.find name = some idx → idx < g.m_outputs.length := by
    intro name idx hidx
    by_cases hname : name ∈ config.outputs.map Prod.fst
    · rw [hfind name hname] at hidx
      have hlt := List.indexOf_lt_length.mpr hname
      simp only [List.length_map] at hlt
      cases hidx
      omega
    · have hnone := (collect_outputs_find_none config.outputs [] [] 0 name).mpr
        ⟨rfl, hname⟩
      rw [hmem.2.2.2.1, hnone] at hidx
      cases hidx
  refine ⟨hmem.2.2.1, hlen, ?_, ?_, ?_⟩
  · intro name hname
    obtain ⟨o, ho, huniq⟩ := getElem_indexOf_fst config.outputs name hname
    refine ⟨(config.outputs.map Prod.fst).indexOf name, o, hfind name hname,
      hrange name _ (hfind name hname), ho, ?_, huniq⟩
    rw [hmem.2.2.1, List.getElem?_map, ho]
    rfl
  · have hdef := hmem.2.2.2.2
    by_cases hd : d.length > 0
    · simp only [hd, if_true] at hdef
      exact hrange d _ hdef
    · simp only [hd, if_false] at hdef
      omega
  · intro name idx hat
    unfold StdMap.at_ at hat
    cases hf : g.m_output_indices.find name with
    | none => simp [hf] at hat
    | some p =>
      simp only [hf, Except.ok.injEq] at hat
      subst hat
      exact hrange name p hf

/-- Witness of C12: the two-output toy network with default `b`. -/
theorem C12_lookup_points_into_outputs_witness :
    LightweightGraph.new toyExt toyConfigTwo "b" = .ok toyTwo ∧
    toyTwo.m_outputs = [(0, ["p", "q"]), (1, ["r", "s"])] ∧
    StdMap.find toyTwo.m_output_indices "b" = some 1 ∧
    toyTwo.m_default_output < toyTwo.m_outputs.length ∧
    (∀ (name : String) (idx : Nat),
      toyTwo.m_output_indices.at_ name = .ok idx → idx < toyTwo.m_outputs.length) :=
  ⟨rfl, rfl, rfl,
    (C12_lookup_points_into_outputs toyExt toyConfigTwo "b" toyTwo rfl).2.2.2.1,
    (C12_lookup_points_into_outputs toyExt toyConfigTwo "b" toyTwo rfl).2.2.2.2⟩

/-! ## The empty default name (C13) -/

/-- C13: the empty default name means that no default is given, also when an output is
named by the empty string: for a configuration whose graph builds, construction with the
default name `""` succeeds if and only if exactly one output is declared, the default
index then being 0; with no output or with two or more outputs (one of which may be named
`""`) it fails with the configuration error "you must specify a default output". -/
theorem C13_empty_default_means_none {D R S V NC LC : Type}
    (ext : Collaborators D R S V NC LC) (config : GraphConfig V NC LC)
    (m_graph : Graph D)
    (hgraph : ext.Graph_new config.nodes config.layers = .ok m_graph) :
    ((∃ g : LightweightGraph D R S, LightweightGraph.new ext config "" = .ok g) ↔
      config.outputs.length = 1) ∧
    (∀ g : LightweightGraph D R S, LightweightGraph.new ext config "" = .ok g →
      g.m_default_output = 0) ∧
    (config.outputs.length ≠ 1 →
      (LightweightGraph.new ext config "" : Except LwtError (LightweightGraph D R S)) =
        .error (.NNConfigurationException "you must specify a default output")) := by
  have hlen : ¬ ("".length > 0) := by decide
  have hcnt := collect_outputs_count config.outputs [] [] 0
  simp only [Nat.zero_add] at hcnt
  have hne : config.outputs.length ≠ 1 →
      (LightweightGraph.new ext config "" : Except LwtError (LightweightGraph D R S)) =
        .error (.NNConfigurationException "you must specify a default output") := by
    intro h1
    rw [LightweightGraph.new_of_graph ext config "" m_graph hgraph]
    simp [hlen, hcnt, h1]
  refine ⟨⟨?_, ?_⟩, ?_, hne⟩
  · rintro ⟨g, hg⟩
    by_contra h1
    rw [hne h1] at hg
    cases hg
  · intro h1
    rw [LightweightGraph.new_of_graph ext config "" m_graph hgraph]
    simp [hlen, hcnt, h1]
  · intro g hg
    have hdef := (LightweightGraph.new_ok_members ext config "" g hg).2.2.2.2
    simp only [hlen, if_false] at hdef
    exact hdef.1

/-- Witness of C13: two declared outputs, the first named by the empty string. -/
theorem C13_empty_default_means_none_witness :
    toyExt.Graph_new toyConfigBlank.nodes toyConfigBlank.layers = .ok toyGraph ∧
    "" ∈ toyConfigBlank.outputs.map Prod.fst ∧
    toyConfigBlank.outputs.length ≠ 1 ∧
    (LightweightGraph.new toyExt toyConfigBlank "" :
        Except LwtError (LightweightGraph Int (List Int) (List (List Int)))) =
      .error (.NNConfigurationException "you must specify a default output") :=
  ⟨rfl, by decide, by decide,
    (C13_empty_default_means_none toyExt toyConfigBlank toyGraph rfl).2.2 (by decide)⟩

/-! ## Undeclared input names do not matter (C14) -/

theorem get_input_vectors_congr {D R : Type} (nodes nodes' : NodeMap R)
    (preprocs : Preprocs D R)
    (h : ∀ proc ∈ preprocs, nodes.find proc.1 = StdMap.find nodes' proc.1) :
    get_input_vectors nodes preprocs = get_input_vectors nodes' preprocs := by
  induction preprocs with
  | nil => rfl
  | cons proc rest ih =>
    simp only [get_input_vectors, StdMap.count, StdMap.at_,
      h proc (List.mem_cons_self _ _), ih (fun p hp => h p (List.mem_cons_of_mem _ hp))]

theorem get_input_seq_congr {D S : Type} (nodes nodes' : SeqNodeMap S)
    (preprocs : VecPreprocs D S)
    (h : ∀ proc ∈ preprocs, nodes.find proc.1 = StdMap.find nodes' proc.1) :
    get_input_seq nodes preprocs = get_input_seq nodes' preprocs := by
  induction preprocs with
  | nil => rfl
  | cons proc rest ih =>
    simp only [get_input_seq, StdMap.count, StdMap.at_,
      h proc (List.mem_cons_self _ _), ih (fun p hp => h p (List.mem_cons_of_mem _ hp))]

/-- C14: for a constructed orchestrator and any output selector, two plain-input mappings
that hold the same entry (or both none) under every declared plain-input name, and two
sequence mappings that hold the same entry under every declared sequence-input name, give
identical results (the same mapping or the same failure), whatever they hold under other
names. -/
theorem C14_only_declared_inputs_matter {D R S V NC LC : Type}
    (ext : Collaborators D R S V NC LC) (config : GraphConfig V NC LC)
    (d : String) (g : LightweightGraph D R S)
    (hnew : LightweightGraph.new ext config d = .ok g)
    (nodes nodes' : NodeMap R) (seq seq' : SeqNodeMap S)
    (hagree : ∀ node ∈ config.inputs, nodes.find node.name = StdMap.find nodes' node.name)
    (hagree_seq : ∀ node ∈ config.input_sequences,
      seq.find node.name = StdMap.find seq' node.name)
    (seq_first : Bool) (sel : OutputSelector) :
    g.call seq_first nodes seq sel = g.call seq_first nodes' seq' sel := by
  have hmem := LightweightGraph.new_ok_members ext config d g hnew
  have hv : get_input_vectors nodes g.m_preprocs = get_input_vectors nodes' g.m_preprocs := by
    apply get_input_vectors_congr
    intro proc hp
    rw [hmem.1] at hp
    obtain ⟨node, hn, rfl⟩ := List.mem_map.mp hp
    exact hagree node hn
  have hs : get_input_seq seq g.m_vec_preprocs = get_input_seq seq' g.m_vec_preprocs := by
    apply get_input_seq_congr
    intro proc hp
    rw [hmem.2.1] at hp
    obtain ⟨node, hn, rfl⟩ := List.mem_map.mp hp
    exact hagree_seq node hn
  have hsrc : g.make_source seq_first nodes seq = g.make_source seq_first nodes' seq' := by
    simp only [LightweightGraph.make_source, hv, hs]
  have hidx : ∀ idx, g.compute_idx seq_first nodes seq idx =
      g.compute_idx seq_first nodes' seq' idx := by
    intro idx
    simp only [LightweightGraph.compute_idx, hsrc]
  cases sel with
  | default => simp only [LightweightGraph.call, LightweightGraph.compute, hidx]
  | name output => simp only [LightweightGraph.call, LightweightGraph.compute_name, hidx]
  | index idx => simp only [LightweightGraph.call, hidx]

/-- Witness of C14: on the two-output toy network, mappings that differ in the order of
the entries and in the undeclared names `zz` and `t` give the same default result. -/
theorem C14_only_declared_inputs_matter_witness :
    LightweightGraph.new toyExt toyConfigTwo "b" = .ok toyTwo ∧
    toyTwo.call false [("x", [1, 2]), ("y", [5, 6]), ("zz", [9])] [("s", [])] .default =
      .ok [("r", 5), ("s", 6)] ∧
    toyTwo.call false [("x", [1, 2]), ("y", [5, 6]), ("zz", [9])] [("s", [])] .default =
      toyTwo.call false [("y", [5, 6]), ("x", [1, 2])] [("s", []), ("t", [[4]])] .default :=
  ⟨rfl, by decide,
    C14_only_declared_inputs_matter toyExt toyConfigTwo "b" toyTwo rfl
      [("x", [1, 2]), ("y", [5, 6]), ("zz", [9])] [("y", [5, 6]), ("x", [1, 2])]
      [("s", [])] [("s", []), ("t", [[4]])]
      (by intro node hn; simp [toyConfigTwo] at hn; rcases hn with rfl | rfl <;> decide)
      (by intro node hn; simp [toyConfigTwo] at hn; subst hn; decide)
      false .default⟩

/-! ## Repeated labels (C15) -/

theorem StdMap.find_eq_none_iff {T : Type} (m : StdMap T) (key : String) :
    m.find key = none ↔ key ∉ m.keys := by
  induction m with
  | nil => simp [StdMap.find, StdMap.keys]
  | cons hd rest ih =>
    obtain ⟨k, w⟩ := hd
    simp only [StdMap.keys, List.map_cons, List.mem_cons, not_or] at ih ⊢
    by_cases hk : key = k
    · simp [StdMap.find, hk]
    · simp [StdMap.find, hk, ih]

theorem StdMap.keys_replace {T : Type} (m : StdMap T) (key : String) (v : T) :
    (m.replace key v).keys = m.keys := by
  induction m with
  | nil => rfl
  | cons hd rest ih =>
    obtain ⟨k, w⟩ := hd
    simp only [StdMap.keys, List.map_cons] at ih ⊢
    by_cases hk : key = k
    · simp [StdMap.replace, hk]
    · simp [StdMap.replace, hk, ih]

theorem StdMap.keys_insert_new_perm {T : Type} (m : StdMap T) (key : String) (v : T) :
    List.Perm (m.insert_new key v).keys (key :: m.keys) := by
  induction m with
  | nil => simp [StdMap.insert_new, StdMap.keys]
  | cons hd rest ih =>
    obtain ⟨k, w⟩ := hd
    simp only [StdMap.keys, List.map_cons] at ih ⊢
    by_cases hlt : key.data < k.data
    · simp [StdMap.insert_new, hlt]
    · simp only [StdMap.insert_new, hlt, if_false, List.map_cons]
      exact (List.Perm.cons k ih).trans (List.Perm.swap key k _)

/-- An assignment keeps the keys of the map pairwise distinct. -/
theorem StdMap.keys_assign_nodup {T : Type} (m : StdMap T) (key : String) (v : T)
    (h : m.keys.Nodup) : (m.assign key v).keys.Nodup := by
  unfold StdMap.assign
  cases hf : m.find key with
  | some w => simpa [StdMap.keys_replace] using h
  | none =>
    have hnot : key ∉ m.keys := (StdMap.find_eq_none_iff m key).mp hf
    have hperm := StdMap.keys_insert_new_perm m key v
    simp only [Option.isSome_none, Bool.false_eq_true, if_false]
    exact (List.Perm.nodup_iff hperm).mpr (List.nodup_cons.mpr ⟨hnot, h⟩)

theorem zip_labels_keys_nodup {D : Type} (result : VectorXd D) (labels : List String) :
    ∀ (iii : Nat) (output out : ValueMap D), (StdMap.keys output).Nodup →
      LightweightGraph.zip_labels result labels iii output = .ok out →
      (StdMap.keys out).Nodup := by
  induction labels with
  | nil =>
    intro iii output out hnd h
    simp only [LightweightGraph.zip_labels, Except.ok.injEq] at h
    rw [← h]
    exact hnd
  | cons label rest ih =>
    intro iii output out hnd h
    simp only [LightweightGraph.zip_labels] at h
    cases hget : result[iii]? with
    | none => simp [hget] at h
    | some value =>
      simp only [hget] at h
      exact ih (iii + 1) _ out (StdMap.keys_assign_nodup output label value hnd) h

/-- Every element of a list has a last position. -/
theorem exists_last_occurrence (labels : List String) (key : String) (h : key ∈ labels) :
    ∃ (j : Nat) (hj : j < labels.length), labels[j] = key ∧
      ∀ j', j < j' → labels[j']? ≠ some key := by
  induction labels with
  | nil => simp at h
  | cons a rest ih =>
    by_cases hrest : key ∈ rest
    · obtain ⟨j, hj, hget, hlast⟩ := ih hrest
      refine ⟨j + 1, by simp; omega, by simpa using hget, ?_⟩
      intro j' hj'
      obtain ⟨k, rfl⟩ : ∃ k, j' = k + 1 := ⟨j' - 1, by omega⟩
      simpa using hlast k (by omega)
    · have hka : key = a := by
        rcases List.mem_cons.mp h with h1 | h1
        · exact h1
        · exact absurd h1 hrest
      refine ⟨0, by simp, by simp [hka], ?_⟩
      intro j' hj' heq
      obtain ⟨k, rfl⟩ : ∃ k, j' = k + 1 := ⟨j' - 1, by omega⟩
      simp only [List.getElem?_cons_succ] at heq
      obtain ⟨hk, hget⟩ := List.getElem?_eq_some_iff.mp heq
      exact hrest (hget ▸ List.getElem_mem hk)

/-- C15: for a constructed orchestrator and its `idx`-th declared output, whose label list
may repeat labels: in a call where the source is built and the graph's vector has at
least as many entries as there are labels, `compute` returns a mapping whose keys are
exactly the labels, each once (as many entries as there are distinct labels, hence at
most as many as labels, and none for an empty label list), and every key maps to the
vector entry at the last position at which that label occurs in the list. -/
theorem C15_repeated_labels_last_wins {D R S V NC LC : Type}
    (ext : Collaborators D R S V NC LC) (config : GraphConfig V NC LC)
    (d : String) (g : LightweightGraph D R S)
    (hnew : LightweightGraph.new ext config d = .ok g)
    (idx : Nat) (name : String) (o : OutputNodeConfig)
    (hdecl : config.outputs[idx]? = some (name, o))
    (seq_first : Bool) (nodes : NodeMap R) (seq : SeqNodeMap S)
    (source : ISource D) (result : VectorXd D)
    (hsrc : g.make_source seq_first nodes seq = .ok source)
    (hres : g.m_graph.compute source o.node_index = .ok result)
    (hlen : o.labels.length ≤ result.length) :
    ∃ output : ValueMap D, g.compute_idx seq_first nodes seq idx = .ok output ∧
      (∀ key, StdMap.count output key = 1 ↔ key ∈ o.labels) ∧
      (StdMap.keys output).Nodup ∧
      output.length = o.labels.dedup.length ∧
      output.length ≤ o.labels.length ∧
      (o.labels = [] → output = []) ∧
      ∀ key ∈ o.labels, ∃ (j : Nat) (hj : j < o.labels.length), o.labels[j] = key ∧
        (∀ j', j < j' → o.labels[j']? ≠ some key) ∧
        StdMap.find output key = result[j]? ∧ ∃ value, result[j]? = some value := by
  have hmem := LightweightGraph.new_ok_members ext config d g hnew
  have hat : vector_at g.m_outputs idx = .ok (o.node_index, o.labels) := by
    simp [vector_at, hmem.2.2.1, List.getElem?_map, hdecl]
  obtain ⟨out, hout, hkeep, hpos⟩ :=
    zip_labels_find result o.labels 0 ([] : ValueMap D) (by omega)
  have hlast : ∀ key ∈ o.labels, ∃ (j : Nat) (hj : j < o.labels.length), o.labels[j] = key ∧
      (∀ j', j < j' → o.labels[j']? ≠ some key) ∧
      StdMap.find out key = result[j]? ∧ ∃ value, result[j]? = some value := by
    intro key hkey
    obtain ⟨j, hj, hget, hl⟩ := exists_last_occurrence o.labels key hkey
    have hfind := hpos j hj (by rw [hget]; exact hl)
    rw [hget, Nat.zero_add] at hfind
    exact ⟨j, hj, hget, hl, hfind, result[j], List.getElem?_eq_getElem (by omega)⟩
  have hkeys : ∀ key, key ∈ StdMap.keys out ↔ key ∈ o.labels := by
    intro key
    by_cases hkey : key ∈ o.labels
    · obtain ⟨j, hj, _, _, hfind, value, hval⟩ := hlast key hkey
      have hne : ¬ StdMap.find out key = none := by rw [hfind, hval]; simp
      have := (StdMap.find_eq_none_iff out key).not.mp hne
      simp only [not_not] at this
      exact ⟨fun _ => hkey, fun _ => this⟩
    · have hnone : StdMap.find out key = none := by rw [hkeep key hkey]; rfl
      have := (StdMap.find_eq_none_iff out key).mp hnone
      exact ⟨fun h => absurd h this, fun h => absurd h hkey⟩
  have hnd : (StdMap.keys out).Nodup :=
    zip_labels_keys_nodup result o.labels 0 [] out (by simp [StdMap.keys]) hout
  have hcard : out.length = o.labels.dedup.length := by
    have h1 : (StdMap.keys out).toFinset = o.labels.toFinset := by
      ext key
      simp [hkeys key]
    have h2 : (StdMap.keys out).toFinset.card = (StdMap.keys out).length :=
      List.toFinset_card_of_nodup hnd
    have h3 : o.labels.toFinset.card = o.labels.dedup.length := List.card_toFinset _
    have h4 : (StdMap.keys out).length = out.length := by simp [StdMap.keys]
    rw [← h4, ← h2, h1, h3]
  refine ⟨out, ?_, ?_, hnd, hcard, ?_, ?_, hlast⟩
  · simp [LightweightGraph.compute_idx, LightweightGraph.compute_from_source, hsrc, hat,
      hres, hout]
  · intro key
    rw [← hkeys key]
    by_cases hk : key ∈ StdMap.keys out
    · have hne : ¬ StdMap.find out key = none :=
        fun h => (StdMap.find_eq_none_iff out key).mp h hk
      cases hf : StdMap.find out key with
      | none => exact absurd hf hne
      | some v => simp [StdMap.count, hf, hk]
    · have hnone := (StdMap.find_eq_none_iff out key).mpr hk
      simp [StdMap.count, hnone, hk]
  · rw [hcard]
    exact (List.dedup_sublist _).length_le
  · intro hnil
    rw [hnil] at hout
    simp only [LightweightGraph.zip_labels, Except.ok.injEq] at hout
    exact hout.symm

/-- Witness of C15: labels `u, v, u` on the vector `(1, 2, 3)`: two keys, `u` maps to
the entry at position 2 and `v` to the entry at position 1. -/
theorem C15_repeated_labels_last_wins_witness :
    LightweightGraph.new toyExt toyConfigRepeat "" = .ok toyRepeat ∧
    toyConfigRepeat.outputs[0]? =
      some ("out", { labels := ["u", "v", "u"], node_index := 0 }) ∧
    toyRepeat.make_source false [("x", [1, 2, 3])] [] = .ok (VectorSource [[1, 2, 3]] []) ∧
    toyRepeat.m_graph.compute (VectorSource [[1, 2, 3]] []) 0 = .ok [1, 2, 3] ∧
    toyRepeat.compute_idx false [("x", [1, 2, 3])] [] 0 = .ok [("u", 3), ("v", 2)] ∧
    ∃ output : ValueMap Int,
      toyRepeat.compute_idx false [("x", [1, 2, 3])] [] 0 = .ok output ∧
      (∀ key, StdMap.count output key = 1 ↔ key ∈ ["u", "v", "u"]) ∧
      (StdMap.keys output).Nodup ∧
      output.length = ["u", "v", "u"].dedup.length ∧
      output.length ≤ ["u", "v", "u"].length ∧
      (["u", "v", "u"] = [] → output = []) ∧
      ∀ key ∈ ["u", "v", "u"], ∃ (j : Nat) (hj : j < ["u", "v", "u"].length),
        ["u", "v", "u"][j] = key ∧
        (∀ j', j < j' → ["u", "v", "u"][j']? ≠ some key) ∧
        StdMap.find output key = ([1, 2, 3] : VectorXd Int)[j]? ∧
        ∃ value, ([1, 2, 3] : VectorXd Int)[j]? = some value :=
  ⟨rfl, rfl, rfl, rfl, by decide,
    C15_repeated_labels_last_wins toyExt toyConfigRepeat "" toyRepeat rfl 0 "out"
      { labels := ["u", "v", "u"], node_index := 0 } rfl
      false [("x", [1, 2, 3])] [] (VectorSource [[1, 2, 3]] []) [1, 2, 3] rfl rfl
      (by decide)⟩

/-! ## An index beyond the output list (C16) -/

/-- C16: for a constructed orchestrator, an index `idx` at or beyond the number of
declared outputs and any input mappings, `compute(nodes, seq, idx)` returns no mapping:
it fails with an evaluation error when a declared input is missing (the inputs are looked
up first), and otherwise with the `std::out_of_range` of `m_outputs.at(idx)`, which is
neither a configuration error nor an evaluation error. -/
theorem C16_index_beyond_outputs {D R S V NC LC : Type}
    (ext : Collaborators D R S V NC LC) (config : GraphConfig V NC LC)
    (d : String) (g : LightweightGraph D R S)
    (hnew : LightweightGraph.new ext config d = .ok g)
    (idx : Nat) (hidx : config.outputs.length ≤ idx)
    (seq_first : Bool) (nodes : NodeMap R) (seq : SeqNodeMap S) :
    (∀ m : ValueMap D, g.compute_idx seq_first nodes seq idx ≠ .ok m) ∧
    (((∃ node ∈ config.inputs, nodes.count node.name = 0) ∨
      (∃ node ∈ config.input_sequences, seq.count node.name = 0)) →
      ∃ what, g.compute_idx seq_first nodes seq idx =
        .error (.NNEvaluationException what)) ∧
    ((∀ node ∈ config.inputs, nodes.count node.name ≠ 0) →
      (∀ node ∈ config.input_sequences, seq.count node.name ≠ 0) →
      g.compute_idx seq_first nodes seq idx = .error .out_of_range) ∧
    LwtError.out_of_range.isEvaluation = false ∧
    LwtError.out_of_range.isConfiguration = false := by
  have hmem := LightweightGraph.new_ok_members ext config d g hnew
  have hat : vector_at g.m_outputs idx = .error .out_of_range := by
    have hnone : g.m_outputs[idx]? = none :=
      List.getElem?_eq_none (by simp [hmem.2.2.1]; omega)
    simp [vector_at, hnone]
  have hmissing : ((∃ node ∈ config.inputs, nodes.count node.name = 0) ∨
      (∃ node ∈ config.input_sequences, seq.count node.name = 0)) →
      ∃ what, g.compute_idx seq_first nodes seq idx =
        .error (.NNEvaluationException what) := by
    intro hmiss
    have hmiss' : (∃ proc ∈ g.m_preprocs, nodes.count proc.1 = 0) ∨
        (∃ proc ∈ g.m_vec_preprocs, seq.count proc.1 = 0) := by
      rcases hmiss with ⟨node, hn, h0⟩ | ⟨node, hn, h0⟩
      · left
        refine ⟨(node.name, ext.InputPreprocessor_new node.variables_), ?_, h0⟩
        rw [hmem.1]
        exact List.mem_map.mpr ⟨node, hn, rfl⟩
      · right
        refine ⟨(node.name, ext.InputVectorPreprocessor_new node.variables_), ?_, h0⟩
        rw [hmem.2.1]
        exact List.mem_map.mpr ⟨node, hn, rfl⟩
    obtain ⟨what, hsrc⟩ := make_source_missing seq_first g nodes seq hmiss'
    exact ⟨what, by simp [LightweightGraph.compute_idx, hsrc]⟩
  have hpresent : (∀ node ∈ config.inputs, nodes.count node.name ≠ 0) →
      (∀ node ∈ config.input_sequences, seq.count node.name ≠ 0) →
      g.compute_idx seq_first nodes seq idx = .error .out_of_range := by
    intro hall hallseq
    have hall' : ∀ proc ∈ g.m_preprocs, nodes.count proc.1 ≠ 0 := by
      intro proc hp
      rw [hmem.1] at hp
      obtain ⟨node, hn, rfl⟩ := List.mem_map.mp hp
      exact hall node hn
    have hallseq' : ∀ proc ∈ g.m_vec_preprocs, seq.count proc.1 ≠ 0 := by
      intro proc hp
      rw [hmem.2.1] at hp
      obtain ⟨node, hn, rfl⟩ := List.mem_map.mp hp
      exact hallseq node hn
    obtain ⟨ivs, hivs, _⟩ := get_input_vectors_present nodes g.m_preprocs hall'
    obtain ⟨ims, hims, _⟩ := get_input_seq_present seq g.m_vec_preprocs hallseq'
    have hsrc := make_source_present seq_first g nodes seq ivs ims hivs hims
    simp [LightweightGraph.compute_idx, LightweightGraph.compute_from_source, hsrc, hat]
  refine ⟨?_, hmissing, hpresent, rfl, rfl⟩
  intro m hm
  by_cases hmiss : (∃ node ∈ config.inputs, nodes.count node.name = 0) ∨
      (∃ node ∈ config.input_sequences, seq.count node.name = 0)
  · obtain ⟨what, hwhat⟩ := hmissing hmiss
    rw [hwhat] at hm
    cases hm
  · have h1 : ∀ node ∈ config.inputs, nodes.count node.name ≠ 0 :=
      fun node hn h0 => hmiss (Or.inl ⟨node, hn, h0⟩)
    have h2 : ∀ node ∈ config.input_sequences, seq.count node.name ≠ 0 :=
      fun node hn h0 => hmiss (Or.inr ⟨node, hn, h0⟩)
    rw [hpresent h1 h2] at hm
    cases hm

/-- Witness of C16: index 2 on the two-output toy network, once with all inputs present
and once with `y` and `s` missing. -/
theorem C16_index_beyond_outputs_witness :
    LightweightGraph.new toyExt toyConfigTwo "b" = .ok toyTwo ∧
    toyConfigTwo.outputs.length ≤ 2 ∧
    toyTwo.compute_idx false [("x", [1, 2]), ("y", [5, 6])] [("s", [])] 2 =
      .error .out_of_range ∧
    (∃ what, toyTwo.compute_idx false [("x", [1, 2])] [] 2 =
      .error (.NNEvaluationException what)) :=
  ⟨rfl, by decide,
    (C16_index_beyond_outputs toyExt toyConfigTwo "b" toyTwo rfl 2 (by decide) false
      [("x", [1, 2]), ("y", [5, 6])] [("s", [])]).2.2.1
      (by intro node hn; simp [toyConfigTwo] at hn; rcases hn with rfl | rfl <;> decide)
      (by intro node hn; simp [toyConfigTwo] at hn; subst hn; decide),
    (C16_index_beyond_outputs toyExt toyConfigTwo "b" toyTwo rfl 2 (by decide) false
      [("x", [1, 2])] []).2.1
      (Or.inl ⟨{ name := "y", variables_ := () }, by simp [toyConfigTwo], by decide⟩)⟩

end lwt
